import Mathlib

/-!
Verification development for the license-expression engine and the
license-finder framework of the sbom-utility repository.

The expression engine (tokenizer, parser, policy evaluator) is embedded from
src/schema/license_expression.go.  The Maven license finder and the shared
finder cache are embedded from the finder sources (LicenseFinderData,
MavenComponentLicenseFinderData).  Policy/conjunction constants, the
LicensePolicy record and the policy-store lookup contract live outside the
provided sources and are modelled from the spec where noted.
-/

/-- Modelled from the spec: the usage-policy string constants of the schema
package (spec section 3: enumeration allow / deny / needs-review / undefined;
the Go constants POLICY_ALLOW etc. are declared outside the provided sources). -/
def POLICY_ALLOW : String := "allow"

/-- Modelled from the spec: the deny usage-policy constant. -/
def POLICY_DENY : String := "deny"

/-- Modelled from the spec: the needs-review usage-policy constant. -/
def POLICY_NEEDS_REVIEW : String := "needs-review"

/-- Modelled from the spec: the undefined usage-policy constant. -/
def POLICY_UNDEFINED : String := "UNDEFINED"

/-- Modelled from the spec: the conjunction keyword constants (spec section 3:
conjunction is And / Or / With / Undefined; the Go constants AND, OR, WITH and
CONJUNCTION_UNDEFINED are declared outside the provided sources.  The source of
src/schema/license_expression.go compares the conjunction field against both
the empty string literal and CONJUNCTION_UNDEFINED interchangeably, fixing
CONJUNCTION_UNDEFINED to the empty string). -/
def AND : String := "AND"

/-- Modelled from the spec: the OR conjunction keyword constant. -/
def OR : String := "OR"

/-- Modelled from the spec: the WITH conjunction keyword constant. -/
def WITH : String := "WITH"

/-- Modelled from the spec: the undefined-conjunction constant (empty string). -/
def CONJUNCTION_UNDEFINED : String := ""

/-- Modelled from the spec: the NOASSERTION sentinel name (spec section 4.8). -/
def NAME_NO_ASSERTION : String := "NOASSERTION"

/-- Token constants of src/schema/license_expression.go. -/
def LEFT_PARENS : String := "("

/-- Right parenthesis token constant. -/
def RIGHT_PARENS : String := ")"

/-- Left parenthesis with trailing separator, used by the tokenizer. -/
def LEFT_PARENS_WITH_SEPARATOR : String := "( "

/-- Right parenthesis with leading separator, used by the tokenizer. -/
def RIGHT_PARENS_WITH_SEPARATOR : String := " )"

/-- Whitespace predicate mirroring Go unicode.IsSpace on the characters that can
occur here (ASCII whitespace plus NEL and NBSP). -/
def goIsSpace (c : Char) : Bool :=
  c = ' ' || c = '\t' || c = '\n' || c = '\x0b' || c = '\x0c' || c = '\r' ||
  c = '\x85' || c = '\xa0'

/-- Splitter core of Go strings.Fields: walks the characters, accumulating the
current word (reversed) and emitting it at whitespace boundaries. -/
def goFieldsAux : List Char → List Char → List (List Char)
  | [], [] => []
  | [], acc => [acc.reverse]
  | c :: cs, acc =>
    if goIsSpace c then
      match acc with
      | [] => goFieldsAux cs []
      | _ :: _ => acc.reverse :: goFieldsAux cs []
    else
      goFieldsAux cs (c :: acc)

/-- Go strings.Fields: split a character list on runs of whitespace. -/
def goFields (s : List Char) : List (List Char) := goFieldsAux s []

/-- Go strings.ReplaceAll for a single-character pattern. -/
def goReplaceAllChar (s : List Char) (c : Char) (rep : List Char) : List Char :=
  s.flatMap fun x => if x = c then rep else [x]

/-- Go strings.ToUpper restricted to ASCII (every string reasoned about here is
ASCII; Char.toUpper uppercases exactly the ASCII lowercase letters). -/
def goToUpper (s : String) : String := String.mk (s.data.map Char.toUpper)

/-- tokenizeExpression from src/schema/license_expression.go: surround every
parenthesis with whitespace, then split on whitespace runs. -/
def tokenizeExpression (expression : String) : List String :=
  let withLeft := goReplaceAllChar expression.data '(' ['(', ' ']
  let withRight := goReplaceAllChar withLeft ')' [' ', ')']
  (goFields withRight).map String.mk

/-- Modelled from the spec: the LicensePolicy record (spec section 3:
usage_policy, canonical_name, urls; the Go struct is declared outside the
provided sources).  The Go zero value has empty strings and a nil slice. -/
structure LicensePolicy where
  usagePolicy : String := ""
  name : String := ""
  urls : List String := []
deriving Repr, DecidableEq

/-- Modelled from the spec: the policy-store lookup contract (spec section 6:
find_by_spdx_id, find_by_name, find_by_url, each returning a record that is
Undefined-policy on a miss; only the SPDX-id lookup can fail, as its Go
signature returns an error).  IsUrlish is the URL-shape test used by
findPolicy; its regex lives outside the provided sources. -/
structure LicensePolicyConfig where
  findPolicyBySpdxId : String → Except String LicensePolicy
  findPolicyByName : String → LicensePolicy
  findPolicyByUrl : String → LicensePolicy
  isUrlish : String → Bool

/-- Scalar fields of the CompoundExpression struct of
src/schema/license_expression.go (children are split off so that the type can
be recursive). -/
structure CEData where
  simpleLeft : String := ""
  leftPolicy : LicensePolicy := {}
  leftUsagePolicy : String := ""
  simpleRight : String := ""
  simpleRightHasPlus : Bool := false
  rightPolicy : LicensePolicy := {}
  rightUsagePolicy : String := ""
  conjunction : String := ""
  subsequentConjunction : String := ""
  compoundName : String := ""
  compoundUsagePolicy : String := ""
  urls : List String := []
deriving Repr, DecidableEq

/-- The CompoundExpression struct of src/schema/license_expression.go: scalar
fields plus the two optional child pointers. -/
inductive CompoundExpression where
  | mk (data : CEData) (compoundLeft : Option CompoundExpression)
      (compoundRight : Option CompoundExpression)

/-- Scalar-field projection of a CompoundExpression. -/
def CompoundExpression.data : CompoundExpression → CEData
  | .mk d _ _ => d

/-- Left child projection of a CompoundExpression. -/
def CompoundExpression.compoundLeft : CompoundExpression → Option CompoundExpression
  | .mk _ l _ => l

/-- Right child projection of a CompoundExpression. -/
def CompoundExpression.compoundRight : CompoundExpression → Option CompoundExpression
  | .mk _ _ r => r

/-- Replace the scalar fields of a CompoundExpression, keeping both children. -/
def CompoundExpression.setData (e : CompoundExpression) (d : CEData) : CompoundExpression :=
  .mk d e.compoundLeft e.compoundRight

/-- NewCompoundExpression from src/schema/license_expression.go: zero value
with the three usage-policy fields set to UNDEFINED. -/
def NewCompoundExpression : CompoundExpression :=
  .mk { leftUsagePolicy := POLICY_UNDEFINED, rightUsagePolicy := POLICY_UNDEFINED,
        compoundUsagePolicy := POLICY_UNDEFINED } none none

/-- CopyCompoundExpression from src/schema/license_expression.go: copies every
field except SubsequentConjunction and SimpleRightHasPlus, which stay at their
zero values in the copy. -/
def CopyCompoundExpression (expression : CompoundExpression) : CompoundExpression :=
  .mk { simpleLeft := expression.data.simpleLeft
        leftPolicy := expression.data.leftPolicy
        leftUsagePolicy := expression.data.leftUsagePolicy
        conjunction := expression.data.conjunction
        simpleRight := expression.data.simpleRight
        rightPolicy := expression.data.rightPolicy
        rightUsagePolicy := expression.data.rightUsagePolicy
        compoundName := expression.data.compoundName
        urls := expression.data.urls
        compoundUsagePolicy := expression.data.compoundUsagePolicy }
    expression.compoundLeft expression.compoundRight

/-- findPolicy from src/schema/license_expression.go: URL-shaped tokens are
resolved in the URL index only; otherwise the SPDX-id lookup runs first (its
error aborts), and the name lookup runs only when the SPDX-id lookup produced
an Undefined-policy record. -/
def findPolicy (policyConfig : LicensePolicyConfig) (token : String) :
    Except String (String × LicensePolicy) :=
  if policyConfig.isUrlish token then
    let matchedPolicy := policyConfig.findPolicyByUrl token
    Except.ok (matchedPolicy.usagePolicy, matchedPolicy)
  else
    match policyConfig.findPolicyBySpdxId token with
    | Except.error msg => Except.error msg
    | Except.ok matchedPolicy =>
      if matchedPolicy.usagePolicy ≠ POLICY_UNDEFINED then
        Except.ok (matchedPolicy.usagePolicy, matchedPolicy)
      else
        let byName := policyConfig.findPolicyByName token
        Except.ok (byName.usagePolicy, byName)

/-- renderPolicyName from src/schema/license_expression.go. -/
def renderPolicyName (policy : LicensePolicy) : String :=
  if policy.usagePolicy = POLICY_UNDEFINED then NAME_NO_ASSERTION else policy.name

/-- First URL of a policy as a singleton list (empty when the policy has no
URLs), mirroring the repeated append-first-URL idiom of the parser. -/
def firstUrl (policy : LicensePolicy) : List String :=
  match policy.urls with
  | [] => []
  | u :: _ => [u]

/-- Write the compound usage policy of a node. -/
def setCompoundUsagePolicy (e : CompoundExpression) (p : String) : CompoundExpression :=
  e.setData { e.data with compoundUsagePolicy := p }

/-- EvaluateUsagePolicies from src/schema/license_expression.go: the
three-valued policy algebra over leftUsagePolicy, conjunction and
rightUsagePolicy; an unknown conjunction is an error. -/
def EvaluateUsagePolicies (expression : CompoundExpression) :
    Except String CompoundExpression :=
  let l := expression.data.leftUsagePolicy
  let r := expression.data.rightUsagePolicy
  if expression.data.conjunction = AND then
    if l = POLICY_UNDEFINED ∨ r = POLICY_UNDEFINED then
      if l = POLICY_DENY ∨ r = POLICY_DENY then
        Except.ok (setCompoundUsagePolicy expression POLICY_DENY)
      else
        Except.ok (setCompoundUsagePolicy expression POLICY_UNDEFINED)
    else if l = POLICY_DENY ∨ r = POLICY_DENY then
      Except.ok (setCompoundUsagePolicy expression POLICY_DENY)
    else if l = POLICY_NEEDS_REVIEW ∨ r = POLICY_NEEDS_REVIEW then
      Except.ok (setCompoundUsagePolicy expression POLICY_NEEDS_REVIEW)
    else
      Except.ok (setCompoundUsagePolicy expression POLICY_ALLOW)
  else if expression.data.conjunction = OR then
    if l = POLICY_UNDEFINED then
      Except.ok (setCompoundUsagePolicy expression r)
    else if r = POLICY_UNDEFINED then
      Except.ok (setCompoundUsagePolicy expression l)
    else if l = POLICY_ALLOW ∨ r = POLICY_ALLOW then
      Except.ok (setCompoundUsagePolicy expression POLICY_ALLOW)
    else if l = POLICY_NEEDS_REVIEW ∨ r = POLICY_NEEDS_REVIEW then
      Except.ok (setCompoundUsagePolicy expression POLICY_NEEDS_REVIEW)
    else
      Except.ok (setCompoundUsagePolicy expression POLICY_DENY)
  else if expression.data.conjunction = WITH then
    if l = POLICY_UNDEFINED then
      Except.ok (setCompoundUsagePolicy expression r)
    else if r = POLICY_UNDEFINED then
      Except.ok (setCompoundUsagePolicy expression l)
    else if r = POLICY_ALLOW then
      Except.ok (setCompoundUsagePolicy expression POLICY_ALLOW)
    else if r = POLICY_NEEDS_REVIEW then
      Except.ok (setCompoundUsagePolicy expression POLICY_NEEDS_REVIEW)
    else
      Except.ok (setCompoundUsagePolicy expression POLICY_DENY)
  else if expression.data.conjunction = CONJUNCTION_UNDEFINED then
    if l ≠ POLICY_UNDEFINED ∧ r = POLICY_UNDEFINED then
      Except.ok (setCompoundUsagePolicy expression l)
    else
      Except.ok expression
  else
    Except.error "invalid license expression: invalid conjunction"

/-- FoldLeftAndAppendRight from src/schema/license_expression.go: the current
triple becomes the evaluated left child, the node takes the given conjunction
and the token as its new simple right operand.  The Go method mutates the
receiver and returns an error that its caller discards; the model returns the
expression state reached at the point of return together with that error. -/
def FoldLeftAndAppendRight (policyConfig : LicensePolicyConfig)
    (expression : CompoundExpression) (conjunction : String) (token : String) :
    CompoundExpression × Option String :=
  match EvaluateUsagePolicies (CopyCompoundExpression expression) with
  | Except.error msg => (expression, some msg)
  | Except.ok childExpression =>
    let exp1 := CompoundExpression.mk
      { expression.data with
          simpleLeft := ""
          leftPolicy := {}
          leftUsagePolicy := childExpression.data.compoundUsagePolicy
          conjunction := conjunction
          simpleRight := token }
      (some childExpression) expression.compoundRight
    match findPolicy policyConfig token with
    | Except.error msg =>
      -- the Go multi-assignment stores the zero values produced alongside the error
      (exp1.setData { exp1.data with rightUsagePolicy := "", rightPolicy := {} }, some msg)
    | Except.ok (matchedUsagePolicy, matchedPolicy) =>
      let exp2 := exp1.setData
        { exp1.data with
            rightUsagePolicy := matchedUsagePolicy
            rightPolicy := matchedPolicy
            compoundName := exp1.data.compoundName ++ " " ++
              exp1.data.subsequentConjunction ++ " " ++ renderPolicyName matchedPolicy
            subsequentConjunction := ""
            urls := exp1.data.urls ++ firstUrl matchedPolicy }
      (exp2, none)

/-- Child construction of FoldAndAppendRight (src/schema/license_expression.go)
is split into named steps so that proofs can track fields through it; this is
the compound-name and url bookkeeping keyed on whether the old right operand
was itself compound. -/
def foldRightChildName (expression child1 : CompoundExpression) : CompoundExpression :=
  match expression.compoundRight with
  | some oldRight =>
    child1.setData { child1.data with
      compoundName := oldRight.data.compoundName
      urls := child1.data.urls ++ oldRight.data.urls }
  | none =>
    let c := child1.setData { child1.data with
      compoundName := renderPolicyName expression.data.rightPolicy }
    match expression.data.rightPolicy.urls with
    | [] => c
    | u :: _ => c.setData { c.data with urls := expression.data.urls ++ [u] }

/-- Last url-append step of the right-fold child construction. -/
def foldRightChildUrls (expression child3 : CompoundExpression) : CompoundExpression :=
  match child3.data.rightPolicy.urls with
  | [] => child3
  | u :: _ => child3.setData { child3.data with urls := expression.data.urls ++ [u] }

/-- Right-fold child assembled in the order of the source statements. -/
def foldRightChild (expression : CompoundExpression) (conjunction : String)
    (token : String) (matchedUsagePolicy : String) (matchedPolicy : LicensePolicy) :
    CompoundExpression :=
  let child0 := CompoundExpression.mk
    { NewCompoundExpression.data with
        simpleLeft := expression.data.simpleRight
        leftPolicy := expression.data.rightPolicy
        leftUsagePolicy := expression.data.rightUsagePolicy
        conjunction := conjunction
        simpleRight := token }
    expression.compoundRight none
  let child1 := child0.setData
    { child0.data with rightUsagePolicy := matchedUsagePolicy, rightPolicy := matchedPolicy }
  let child2 := foldRightChildName expression child1
  let child3 := child2.setData { child2.data with
    compoundName := " " ++ expression.data.subsequentConjunction ++ " " ++
      renderPolicyName child2.data.rightPolicy }
  foldRightChildUrls expression child3

/-- FoldAndAppendRight from src/schema/license_expression.go continued: the
constructed child is evaluated and installed as the right child. -/
def FoldAndAppendRight (policyConfig : LicensePolicyConfig)
    (expression : CompoundExpression) (conjunction : String) (token : String) :
    CompoundExpression × Option String :=
  match findPolicy policyConfig token with
  | Except.error msg => (expression, some msg)
  | Except.ok (matchedUsagePolicy, matchedPolicy) =>
    let child4 := foldRightChild expression conjunction token matchedUsagePolicy matchedPolicy
    match EvaluateUsagePolicies child4 with
    | Except.error msg => (expression, some msg)
    | Except.ok childExpression =>
      let exp1 := CompoundExpression.mk
        { expression.data with
            simpleRight := ""
            rightPolicy := {}
            rightUsagePolicy := childExpression.data.compoundUsagePolicy
            compoundName := expression.data.compoundName ++ " " ++
              expression.data.subsequentConjunction ++ " " ++
              renderPolicyName childExpression.data.rightPolicy
            subsequentConjunction := ""
            urls := expression.data.urls ++ firstUrl childExpression.data.rightPolicy }
        expression.compoundLeft (some childExpression)
      (exp1, none)

/-- Dispatch of the nine conjunction/subsequent-conjunction fold cases of
Parse (src/schema/license_expression.go); the Go code discards the fold
errors, so only the mutated expression is kept. -/
def foldStep (policyConfig : LicensePolicyConfig) (expression : CompoundExpression)
    (token : String) : CompoundExpression :=
  if expression.data.conjunction = AND ∧ expression.data.subsequentConjunction = AND then
    (FoldLeftAndAppendRight policyConfig expression AND token).1
  else if expression.data.conjunction = AND ∧ expression.data.subsequentConjunction = OR then
    (FoldLeftAndAppendRight policyConfig expression OR token).1
  else if expression.data.conjunction = AND ∧ expression.data.subsequentConjunction = WITH then
    (FoldAndAppendRight policyConfig expression WITH token).1
  else if expression.data.conjunction = OR ∧ expression.data.subsequentConjunction = AND then
    (FoldAndAppendRight policyConfig expression AND token).1
  else if expression.data.conjunction = OR ∧ expression.data.subsequentConjunction = OR then
    (FoldAndAppendRight policyConfig expression OR token).1
  else if expression.data.conjunction = OR ∧ expression.data.subsequentConjunction = WITH then
    (FoldAndAppendRight policyConfig expression WITH token).1
  else if expression.data.conjunction = WITH ∧ expression.data.subsequentConjunction = AND then
    (FoldLeftAndAppendRight policyConfig expression AND token).1
  else if expression.data.conjunction = WITH ∧ expression.data.subsequentConjunction = OR then
    (FoldLeftAndAppendRight policyConfig expression OR token).1
  else if expression.data.conjunction = WITH ∧ expression.data.subsequentConjunction = WITH then
    (FoldAndAppendRight policyConfig expression OR token).1
  else
    expression

/-- Parse loop of src/schema/license_expression.go rendered on the suffix of
tokens still to be consumed.  The fuel argument only drives the recursion; one
unit is spent per processed token and per entered group, so any fuel above the
number of remaining tokens is enough (proved below).  A right parenthesis
evaluates the node and returns without consuming the parenthesis (the caller
drops it), mirroring the do-not-increment return of the source. -/
def parseAuxF (policyConfig : LicensePolicyConfig) :
    Nat → CompoundExpression → List String →
    Except String (List String × CompoundExpression)
  | 0, _, _ => Except.error "parse fuel exhausted"
  | _ + 1, expression, [] =>
    (EvaluateUsagePolicies expression).map fun e => (([] : List String), e)
  | fuel + 1, expression, token :: rest =>
      if goToUpper token = LEFT_PARENS then
        match parseAuxF policyConfig fuel NewCompoundExpression rest with
        | Except.error msg => Except.error msg
        | Except.ok (rem, childExpression) =>
          let expression' :=
            if expression.data.conjunction = "" then
              CompoundExpression.mk
                { expression.data with
                    compoundName := LEFT_PARENS ++ " " ++
                      childExpression.data.compoundName ++ " " ++ RIGHT_PARENS
                    urls := expression.data.urls ++ childExpression.data.urls
                    leftUsagePolicy := childExpression.data.compoundUsagePolicy }
                (some childExpression) expression.compoundRight
            else
              CompoundExpression.mk
                { expression.data with
                    compoundName := expression.data.compoundName ++
                      (if expression.data.subsequentConjunction ≠ "" then
                        " " ++ expression.data.subsequentConjunction else "") ++
                      " " ++ LEFT_PARENS ++ " " ++
                      childExpression.data.compoundName ++ " " ++ RIGHT_PARENS
                    urls := expression.data.urls ++ childExpression.data.urls
                    rightUsagePolicy := childExpression.data.compoundUsagePolicy }
                expression.compoundLeft (some childExpression)
          parseAuxF policyConfig fuel expression' (rem.drop 1)
      else if goToUpper token = RIGHT_PARENS then
        (EvaluateUsagePolicies expression).map fun e => (token :: rest, e)
      else if goToUpper token = AND then
        if expression.data.conjunction = "" then
          parseAuxF policyConfig fuel
            (expression.setData { expression.data with
              conjunction := AND
              compoundName := expression.data.compoundName ++ " " ++ AND }) rest
        else
          parseAuxF policyConfig fuel
            (expression.setData { expression.data with subsequentConjunction := AND }) rest
      else if goToUpper token = OR then
        if expression.data.conjunction = "" then
          parseAuxF policyConfig fuel
            (expression.setData { expression.data with
              conjunction := OR
              compoundName := expression.data.compoundName ++ " " ++ OR }) rest
        else
          parseAuxF policyConfig fuel
            (expression.setData { expression.data with subsequentConjunction := OR }) rest
      else if goToUpper token = WITH then
        if expression.data.conjunction = "" then
          parseAuxF policyConfig fuel
            (expression.setData { expression.data with
              conjunction := WITH
              compoundName := expression.data.compoundName ++ " " ++ WITH }) rest
        else
          parseAuxF policyConfig fuel
            (expression.setData { expression.data with subsequentConjunction := WITH }) rest
      else
        if expression.data.conjunction = CONJUNCTION_UNDEFINED then
          match findPolicy policyConfig token with
          | Except.error msg => Except.error msg
          | Except.ok (matchedUsagePolicy, matchedPolicy) =>
            parseAuxF policyConfig fuel
              (expression.setData { expression.data with
                simpleLeft := token
                leftUsagePolicy := matchedUsagePolicy
                leftPolicy := matchedPolicy
                compoundName := renderPolicyName matchedPolicy
                urls := expression.data.urls ++ firstUrl matchedPolicy }) rest
        else if expression.data.subsequentConjunction = "" then
          match findPolicy policyConfig token with
          | Except.error msg => Except.error msg
          | Except.ok (matchedUsagePolicy, matchedPolicy) =>
            parseAuxF policyConfig fuel
              (expression.setData { expression.data with
                simpleRight := token
                rightUsagePolicy := matchedUsagePolicy
                rightPolicy := matchedPolicy
                compoundName := expression.data.compoundName ++ " " ++
                  renderPolicyName matchedPolicy
                urls := expression.data.urls ++ firstUrl matchedPolicy }) rest
        else
          parseAuxF policyConfig fuel (foldStep policyConfig expression token) rest

/-- Parse from src/schema/license_expression.go: run the loop on a token
suffix, with enough fuel for the whole suffix. -/
def Parse (policyConfig : LicensePolicyConfig) (expression : CompoundExpression)
    (tokens : List String) : Except String (List String × CompoundExpression) :=
  parseAuxF policyConfig (tokens.length + 1) expression tokens

/-- ParseExpression from src/schema/license_expression.go: tokenize, then parse
from a fresh node starting at index zero. -/
def ParseExpression (policyConfig : LicensePolicyConfig) (rawExpression : String) :
    Except String CompoundExpression :=
  (Parse policyConfig NewCompoundExpression (tokenizeExpression rawExpression)).map
    fun p => p.2

/-- Node update performed by the left-parenthesis branch of Parse once the
child group has been parsed: the child lands on the left when no conjunction
is set, otherwise on the right (subsequent conjunction untouched). -/
def lparenUpdate (expression childExpression : CompoundExpression) : CompoundExpression :=
  if expression.data.conjunction = "" then
    CompoundExpression.mk
      { expression.data with
          compoundName := LEFT_PARENS ++ " " ++
            childExpression.data.compoundName ++ " " ++ RIGHT_PARENS
          urls := expression.data.urls ++ childExpression.data.urls
          leftUsagePolicy := childExpression.data.compoundUsagePolicy }
      (some childExpression) expression.compoundRight
  else
    CompoundExpression.mk
      { expression.data with
          compoundName := expression.data.compoundName ++
            (if expression.data.subsequentConjunction ≠ "" then
              " " ++ expression.data.subsequentConjunction else "") ++
            " " ++ LEFT_PARENS ++ " " ++
            childExpression.data.compoundName ++ " " ++ RIGHT_PARENS
          urls := expression.data.urls ++ childExpression.data.urls
          rightUsagePolicy := childExpression.data.compoundUsagePolicy }
      expression.compoundLeft (some childExpression)

/-- A token the parser treats as a plain symbol: its upper-casing is none of
the five keywords. -/
def IsSymTok (t : String) : Prop :=
  goToUpper t ≠ LEFT_PARENS ∧ goToUpper t ≠ RIGHT_PARENS ∧ goToUpper t ≠ AND ∧
  goToUpper t ≠ OR ∧ goToUpper t ≠ WITH

/-- A token the parser treats as a conjunction keyword (match is
case-insensitive via upper-casing). -/
def IsConjTok (t : String) : Prop :=
  goToUpper t = AND ∨ goToUpper t = OR ∨ goToUpper t = WITH

instance (t : String) : Decidable (IsSymTok t) := by
  unfold IsSymTok
  infer_instance

instance (t : String) : Decidable (IsConjTok t) := by
  unfold IsConjTok
  infer_instance

/-- Well-formed token sequences of the spec grammar, with a flag selecting the
production: true for a term (a symbol or a parenthesized expression), false
for an expression (a nonempty chain of terms separated by conjunctions). -/
inductive WFTok : Bool → List String → Prop where
  | sym (s : String) (h : IsSymTok s) : WFTok true [s]
  | group (ts : List String) (h : WFTok false ts) :
      WFTok true (LEFT_PARENS :: ts ++ [RIGHT_PARENS])
  | single (ts : List String) (h : WFTok true ts) : WFTok false ts
  | chain (ts : List String) (c : String) (rest : List String)
      (ht : WFTok true ts) (hc : IsConjTok c) (hr : WFTok false rest) :
      WFTok false (ts ++ c :: rest)

/-- The three defined conjunction values. -/
def conjSet (c : String) : Prop := c = AND ∨ c = OR ∨ c = WITH

/-- Mid-parse node shape ready to receive a term: the left side carries the
constant policy, a conjunction is set, and either the right side is still
Undefined with no buffered subsequent conjunction, or the right side carries
the policy and a subsequent conjunction is buffered. -/
def BState (p : String) (e : CompoundExpression) : Prop :=
  e.data.leftUsagePolicy = p ∧ conjSet e.data.conjunction ∧
  ((e.data.rightUsagePolicy = POLICY_UNDEFINED ∧ e.data.subsequentConjunction = "") ∨
   (e.data.rightUsagePolicy = p ∧ conjSet e.data.subsequentConjunction))

/-- Node shapes from which the parser may consume a term: the fresh node or a
mid-parse shape. -/
def PreState (p : String) (e : CompoundExpression) : Prop :=
  e = NewCompoundExpression ∨ BState p e

/-- Node shapes right after a term has been consumed: one term seen (left side
filled, no conjunction), or at least two terms seen (both sides carry the
policy under a defined conjunction; a subsequent conjunction may still be
buffered when the last term was a parenthesized group). -/
def PostState (p : String) (e : CompoundExpression) : Prop :=
  (e.data.leftUsagePolicy = p ∧ e.data.conjunction = "" ∧
   e.data.rightUsagePolicy = POLICY_UNDEFINED ∧ e.data.subsequentConjunction = "") ∨
  (e.data.leftUsagePolicy = p ∧ conjSet e.data.conjunction ∧
   e.data.rightUsagePolicy = p ∧
   (e.data.subsequentConjunction = "" ∨ conjSet e.data.subsequentConjunction))

/-- Fresh node carrying the given left and right usage policies and
conjunction, as the evaluator receives them. -/
def mkEvalNode (l r c : String) : CompoundExpression :=
  NewCompoundExpression.setData { NewCompoundExpression.data with
    leftUsagePolicy := l
    rightUsagePolicy := r
    conjunction := c }

/-- Reference AND algebra of spec section 4.4: Deny dominates (also against
Undefined), then Undefined, then NeedsReview, else Allow. -/
def refAndPolicy (l r : String) : String :=
  if l = POLICY_DENY ∨ r = POLICY_DENY then POLICY_DENY
  else if l = POLICY_UNDEFINED ∨ r = POLICY_UNDEFINED then POLICY_UNDEFINED
  else if l = POLICY_NEEDS_REVIEW ∨ r = POLICY_NEEDS_REVIEW then POLICY_NEEDS_REVIEW
  else POLICY_ALLOW

/-- Reference OR algebra of spec section 4.4: an Undefined side yields the
other side, then Allow dominates, then NeedsReview, else Deny. -/
def refOrPolicy (l r : String) : String :=
  if l = POLICY_UNDEFINED then r
  else if r = POLICY_UNDEFINED then l
  else if l = POLICY_ALLOW ∨ r = POLICY_ALLOW then POLICY_ALLOW
  else if l = POLICY_NEEDS_REVIEW ∨ r = POLICY_NEEDS_REVIEW then POLICY_NEEDS_REVIEW
  else POLICY_DENY

/-- Reference WITH algebra of spec section 4.4: the OR short-circuit for
Undefined, else the right side when it is Allow or NeedsReview, else Deny. -/
def refWithPolicy (l r : String) : String :=
  if l = POLICY_UNDEFINED then r
  else if r = POLICY_UNDEFINED then l
  else if r = POLICY_ALLOW ∨ r = POLICY_NEEDS_REVIEW then r
  else POLICY_DENY

/-- Reference no-conjunction rule of spec section 4.4: the left side when it
is defined and the right side is Undefined, else Undefined. -/
def refNoConjPolicy (l r : String) : String :=
  if l ≠ POLICY_UNDEFINED ∧ r = POLICY_UNDEFINED then l else POLICY_UNDEFINED

/-- Reference compound policy, dispatching on the conjunction. -/
def refCompoundPolicy (l r c : String) : String :=
  if c = AND then refAndPolicy l r
  else if c = OR then refOrPolicy l r
  else if c = WITH then refWithPolicy l r
  else refNoConjPolicy l r

/-- Shape of a node after a left fold (spec section 4.3 LeftFold): the
evaluated copy of the former triple is the new left child, the node holds the
new conjunction and the arriving token as its simple right operand, and the
subsequent conjunction is cleared. -/
def LeftFoldShape (exp result : CompoundExpression) (t newConj : String) : Prop :=
  ∃ child, EvaluateUsagePolicies (CopyCompoundExpression exp) = Except.ok child ∧
    EvaluateUsagePolicies child = Except.ok child ∧
    result.compoundLeft = some child ∧
    result.data.leftUsagePolicy = child.data.compoundUsagePolicy ∧
    result.data.simpleLeft = "" ∧
    result.data.conjunction = newConj ∧
    result.data.simpleRight = t ∧
    result.data.subsequentConjunction = "" ∧
    child.data.simpleLeft = exp.data.simpleLeft ∧
    child.compoundLeft = exp.compoundLeft ∧
    child.data.conjunction = exp.data.conjunction ∧
    child.data.simpleRight = exp.data.simpleRight ∧
    child.compoundRight = exp.compoundRight

/-- Shape of a node after a right append (spec section 4.3 AppendRight): the
former right operand and the arriving token form a fresh, already evaluated
right child under the given child conjunction; the node keeps its left side
and conjunction and clears the subsequent conjunction. -/
def AppendRightShape (exp result : CompoundExpression) (t childConj : String) : Prop :=
  ∃ child, EvaluateUsagePolicies child = Except.ok child ∧
    result.compoundRight = some child ∧
    result.data.rightUsagePolicy = child.data.compoundUsagePolicy ∧
    result.data.simpleRight = "" ∧
    result.data.simpleLeft = exp.data.simpleLeft ∧
    result.compoundLeft = exp.compoundLeft ∧
    result.data.leftUsagePolicy = exp.data.leftUsagePolicy ∧
    result.data.conjunction = exp.data.conjunction ∧
    result.data.subsequentConjunction = "" ∧
    child.data.simpleLeft = exp.data.simpleRight ∧
    child.compoundLeft = exp.compoundRight ∧
    child.data.leftUsagePolicy = exp.data.rightUsagePolicy ∧
    child.data.conjunction = childConj ∧
    child.data.simpleRight = t

/-- Allow-policy record used by concrete test stores. -/
def c2Policy : LicensePolicy := { usagePolicy := "allow", name := "Classpath" }

/-- Store resolving every token to the allow record. -/
def c2Cfg : LicensePolicyConfig where
  findPolicyBySpdxId := fun _ => Except.ok c2Policy
  findPolicyByName := fun _ => c2Policy
  findPolicyByUrl := fun _ => c2Policy
  isUrlish := fun _ => false

/-- Node mid-parse with WITH as conjunction and WITH buffered. -/
def c2Exp : CompoundExpression :=
  NewCompoundExpression.setData { NewCompoundExpression.data with
    simpleLeft := "MIT"
    leftUsagePolicy := "allow"
    conjunction := WITH
    simpleRight := "GPL-2.0-only"
    rightUsagePolicy := "deny"
    subsequentConjunction := WITH }

/-- Store resolving every SPDX id to allow. -/
def allowAllCfg : LicensePolicyConfig where
  findPolicyBySpdxId := fun _ => Except.ok { usagePolicy := "allow", name := "x" }
  findPolicyByName := fun _ => { usagePolicy := "UNDEFINED" }
  findPolicyByUrl := fun _ => { usagePolicy := "UNDEFINED" }
  isUrlish := fun _ => false

/-- Store resolving every SPDX id to deny. -/
def denyAllCfg : LicensePolicyConfig where
  findPolicyBySpdxId := fun _ => Except.ok { usagePolicy := "deny", name := "x" }
  findPolicyByName := fun _ => { usagePolicy := "UNDEFINED" }
  findPolicyByUrl := fun _ => { usagePolicy := "UNDEFINED" }
  isUrlish := fun _ => false

/-- Boolean success test for a parse result. -/
def exceptIsOk {α β : Type} : Except α β → Bool
  | Except.ok _ => true
  | Except.error _ => false

/-- Invariant of every node the parser works on: its conjunction field holds
one of the four values the parser can write. -/
def ConjOK (e : CompoundExpression) : Prop :=
  e.data.conjunction = "" ∨ conjSet e.data.conjunction

/-- Store that knows nothing: every lookup yields the Undefined record. -/
def undefCfg : LicensePolicyConfig where
  findPolicyBySpdxId := fun _ => Except.ok { usagePolicy := "UNDEFINED" }
  findPolicyByName := fun _ => { usagePolicy := "UNDEFINED" }
  findPolicyByUrl := fun _ => { usagePolicy := "UNDEFINED" }
  isUrlish := fun _ => false

/-- Store mapping GPL-2.0-only to deny and everything else to Undefined. -/
def gplDenyCfg : LicensePolicyConfig where
  findPolicyBySpdxId := fun t =>
    if t = "GPL-2.0-only" then Except.ok { usagePolicy := "deny", name := "GPL 2.0 only" }
    else Except.ok { usagePolicy := "UNDEFINED" }
  findPolicyByName := fun _ => { usagePolicy := "UNDEFINED" }
  findPolicyByUrl := fun _ => { usagePolicy := "UNDEFINED" }
  isUrlish := fun _ => false

/-- Store mapping A to allow and B to deny. -/
def abCfg : LicensePolicyConfig where
  findPolicyBySpdxId := fun t =>
    if t = "A" then Except.ok { usagePolicy := "allow", name := "A" }
    else if t = "B" then Except.ok { usagePolicy := "deny", name := "B" }
    else Except.ok { usagePolicy := "UNDEFINED" }
  findPolicyByName := fun _ => { usagePolicy := "UNDEFINED" }
  findPolicyByUrl := fun _ => { usagePolicy := "UNDEFINED" }
  isUrlish := fun _ => false

/-- Store with a URL-shaped token and distinct records per index. -/
def urlCfg : LicensePolicyConfig where
  findPolicyBySpdxId := fun t =>
    if t = "MIT" then Except.ok { usagePolicy := "allow", name := "MIT License" }
    else Except.ok { usagePolicy := "UNDEFINED" }
  findPolicyByName := fun _ => { usagePolicy := "needs-review", name := "ByName" }
  findPolicyByUrl := fun _ => { usagePolicy := "deny", name := "ByUrl" }
  isUrlish := fun t => t == "https://x"

/-- Modelled from the spec: the parent coordinates a POM may declare
(gopom.Parent, each field a string pointer dereferenced by the finder). -/
structure PomParent where
  groupId : String
  artifactId : String
  version : String
deriving Repr, DecidableEq

/-- Modelled from the spec: one license entry of a POM (gopom.License with
optional name and url). -/
structure PomLicense where
  name : Option String := none
  url : Option String := none
deriving Repr, DecidableEq

/-- Modelled from the spec: the POM fields the finders read
(gopom.Project.Licenses and .Parent, both nil-able). -/
structure PomProject where
  licenses : Option (List PomLicense) := none
  parent : Option PomParent := none
deriving Repr, DecidableEq

/-- Modelled from the spec: the CycloneDX license record the Maven finder
fills (schema.CDXLicense with id, name, url). -/
structure CDXLicense where
  id : String := ""
  name : String := ""
  url : String := ""
deriving Repr, DecidableEq

/-- Modelled from the spec: a CycloneDX license choice (schema.CDXLicenseChoice
with a nil-able license record and an expression). -/
structure CDXLicenseChoice where
  license : Option CDXLicense := none
  expression : String := ""
deriving Repr, DecidableEq

/-- Modelled from the spec: the component coordinates consulted by the
finders (schema.CDXComponent group, name, version, purl). -/
structure CDXComponent where
  group : String := ""
  name : String := ""
  version : String := ""
  purl : String := ""
deriving Repr, DecidableEq

/-- Remote oracle standing for getPomFromMavenRepo: fetching and parsing the
POM for given group, artifact and version coordinates either fails or yields
a POM (the Go function never returns a nil POM without an error). -/
def MavenRepo : Type := String → String → String → Except String PomProject

/-- extractLicensesFromPom: one license choice per POM license entry, with a
missing name or url left as the empty string. -/
def extractLicensesFromPom (pom : Option PomProject) : List CDXLicenseChoice :=
  match pom with
  | none => []
  | some p =>
    match p.licenses with
    | none => []
    | some ls =>
      ls.map fun pomLicense =>
        { license := some { name := pomLicense.name.getD "", url := pomLicense.url.getD "" } }

/-- parseLicensesFromPom from the earlier Maven detector: the name-or-empty
and url-or-empty strings of each POM license entry, in order. -/
def parseLicensesFromPom (pom : Option PomProject) : List String :=
  match pom with
  | none => []
  | some p =>
    match p.licenses with
    | none => []
    | some ls => ls.flatMap fun license => [license.name.getD "", license.url.getD ""]

/-- Parent chase of MavenComponentLicenseFinderData.FindLicenses: the source
runs an unbounded for loop that fetches the POM, stops when it carries
licenses or has no parent, and otherwise moves to the parent coordinates.
Modelled with fuel, also counting the POM fetches performed; none means the
loop has not finished within the given fuel. -/
def mavenFindLicensesLoop (repo : MavenRepo) :
    Nat → String → String → String →
      Option (Except String (List CDXLicenseChoice) × Nat)
  | 0, _, _, _ => none
  | fuel + 1, groupId, artifactId, version =>
    match repo groupId artifactId version with
    | Except.error e => some (Except.error e, 1)
    | Except.ok pom =>
      let licenseChoices := extractLicensesFromPom (some pom)
      if licenseChoices.length > 0 then some (Except.ok licenseChoices, 1)
      else
        match pom.parent with
        | none => some (Except.ok licenseChoices, 1)
        | some parent =>
          match mavenFindLicensesLoop repo fuel parent.groupId parent.artifactId
              parent.version with
          | none => none
          | some (r, n) => some (r, n + 1)

/-- MAX_PARENT_PACKAGE_RECURSION_DEPTH from the earlier Maven detector. -/
def MAX_PARENT_PACKAGE_RECURSION_DEPTH : Nat := 5

/-- Parent chase of the earlier FindLicensesInPom: the same loop but bounded
by an iteration counter; when the bound runs out the loop exits with the last
(empty) license list and no error. The fetch count is returned alongside. -/
def findLicensesInPomLoop (repo : MavenRepo) :
    Nat → String → String → String → Except String (List String) × Nat
  | 0, _, _, _ => (Except.ok [], 0)
  | bound + 1, groupID, artifactID, version =>
    match repo groupID artifactID version with
    | Except.error e => (Except.error e, 1)
    | Except.ok pom =>
      let licenses := parseLicensesFromPom (some pom)
      if licenses.length > 0 then (Except.ok licenses, 1)
      else
        match pom.parent with
        | none => (Except.ok licenses, 1)
        | some parent =>
          let r := findLicensesInPomLoop repo bound parent.groupId parent.artifactId
            parent.version
          (r.1, r.2 + 1)

/-- License cache contents: go-cache holds the group:name:version id against
the cached license choices; modelled as an association list where Set
replaces the entry for the key. -/
def LicenseCache : Type := List (String × List CDXLicenseChoice)

/-- Lookup in the cache (cache.Get). -/
def cacheGet (c : LicenseCache) (k : String) : Option (List CDXLicenseChoice) :=
  (c.find? (fun kv => kv.1 == k)).map (fun kv => kv.2)

/-- Insertion into the cache (cache.Set): any previous entry for the key is
replaced. -/
def cacheSet (c : LicenseCache) (k : String) (v : List CDXLicenseChoice) : LicenseCache :=
  (k, v) :: c.filter (fun kv => ! (kv.1 == k))

/-- getComponentLicenseCacheId: the group:name:version cache key. -/
def getComponentLicenseCacheId (cdxComponent : CDXComponent) : String :=
  cdxComponent.group ++ ":" ++ cdxComponent.name ++ ":" ++ cdxComponent.version

/-- retrieveFromLicenseCache: nothing is found while the cache is not started
(nil) and on a miss; otherwise the cached choices. -/
def retrieveFromLicenseCache (cache : Option LicenseCache) (cdxComponent : CDXComponent) :
    Option (List CDXLicenseChoice) :=
  match cache with
  | none => none
  | some c => cacheGet c (getComponentLicenseCacheId cdxComponent)

/-- storeInLicenseCache: only non-empty license-choice lists are written, and
only when the cache is started, so missing licenses can be searched again. -/
def storeInLicenseCache (cache : Option LicenseCache) (cdxComponent : CDXComponent)
    (licenseChoices : List CDXLicenseChoice) : Option LicenseCache :=
  if licenseChoices.length > 0 then
    match cache with
    | none => none
    | some c =>
      some (cacheSet c (getComponentLicenseCacheId cdxComponent) licenseChoices)
  else cache

/-- MavenComponentLicenseFinderData.FindLicenses: answer from the cache when
possible, otherwise run the parent chase and store the result. Returns the
result, the cache afterwards and the number of POM fetches (0 on a cache
hit); none when the chase does not finish within the fuel. -/
def MavenComponentLicenseFinderData.FindLicenses (repo : MavenRepo) (fuel : Nat)
    (cache : Option LicenseCache) (cdxComponent : CDXComponent) :
    Option (Except String (List CDXLicenseChoice) × Option LicenseCache × Nat) :=
  match retrieveFromLicenseCache cache cdxComponent with
  | some licenseChoices => some (Except.ok licenseChoices, cache, 0)
  | none =>
    match mavenFindLicensesLoop repo fuel cdxComponent.group cdxComponent.name
        cdxComponent.version with
    | none => none
    | some (Except.error e, n) => some (Except.error e, cache, n)
    | some (Except.ok licenseChoices, n) =>
      some (Except.ok licenseChoices,
        storeInLicenseCache cache cdxComponent licenseChoices, n)

/-- Oracle with a parent chain of depth 7: versions 0 through 6 declare the
next version as parent and only version 7 carries a license. -/
def chain7Repo : MavenRepo := fun g a v =>
  if g == "g" && a == "a" then
    if v == "7" then Except.ok { licenses := some [{ name := some "Apache-2.0" }] }
    else if v == "0" then Except.ok { parent := some ⟨"g", "a", "1"⟩ }
    else if v == "1" then Except.ok { parent := some ⟨"g", "a", "2"⟩ }
    else if v == "2" then Except.ok { parent := some ⟨"g", "a", "3"⟩ }
    else if v == "3" then Except.ok { parent := some ⟨"g", "a", "4"⟩ }
    else if v == "4" then Except.ok { parent := some ⟨"g", "a", "5"⟩ }
    else if v == "5" then Except.ok { parent := some ⟨"g", "a", "6"⟩ }
    else if v == "6" then Except.ok { parent := some ⟨"g", "a", "7"⟩ }
    else Except.error "not found"
  else Except.error "not found"

/-- Oracle whose every POM names itself as its parent and carries no
licenses. -/
def cyclicRepo : MavenRepo := fun g a v =>
  Except.ok { licenses := none, parent := some ⟨g, a, v⟩ }

/-- Invariant of the license cache: every cached value is non-empty. -/
def CacheInv (c : LicenseCache) : Prop :=
  ∀ k v, cacheGet c k = some v → v ≠ []

/-- Oracle whose POM for group "has" carries one license and whose other POMs
are empty and parentless. -/
def oneShotRepo : MavenRepo := fun g _ _ =>
  if g == "has" then Except.ok { licenses := some [{ name := some "MIT" }] }
  else Except.ok { licenses := none, parent := none }

/-- Rebuilding a node from its three projections gives the node back. -/
theorem CompoundExpression.mk_eta (e : CompoundExpression) :
    CompoundExpression.mk e.data e.compoundLeft e.compoundRight = e := by
  cases e
  rfl

/-- Evaluation always succeeds when the conjunction is one of the four values
the parser can produce, and only rewrites the compound usage policy. -/
theorem evaluate_ok_of_conj (e : CompoundExpression)
    (h : e.data.conjunction = CONJUNCTION_UNDEFINED ∨ e.data.conjunction = AND ∨
         e.data.conjunction = OR ∨ e.data.conjunction = WITH) :
    ∃ p, EvaluateUsagePolicies e = Except.ok (setCompoundUsagePolicy e p) := by
  have heta : e = setCompoundUsagePolicy e e.data.compoundUsagePolicy := by
    show e = e.setData { e.data with compoundUsagePolicy := e.data.compoundUsagePolicy }
    show e = CompoundExpression.mk { e.data with
      compoundUsagePolicy := e.data.compoundUsagePolicy } e.compoundLeft e.compoundRight
    rw [show { e.data with compoundUsagePolicy := e.data.compoundUsagePolicy } = e.data from rfl]
    rw [CompoundExpression.mk_eta]
  unfold EvaluateUsagePolicies
  rcases h with h | h | h | h <;> rw [h] <;>
    simp only [AND, OR, WITH, CONJUNCTION_UNDEFINED, reduceCtorEq, if_true, if_false,
      String.reduceEq, ite_false, ite_true] <;>
    split_ifs <;>
    first
      | exact ⟨_, rfl⟩
      | exact ⟨e.data.compoundUsagePolicy, by rw [← heta]⟩

/-- A successful parse returns a suffix of the input: the remainder is never
longer than the list of tokens supplied. -/
theorem parseAuxF_length (policyConfig : LicensePolicyConfig) :
    ∀ fuel exp ts rem e, parseAuxF policyConfig fuel exp ts = Except.ok (rem, e) →
      rem.length ≤ ts.length := by
  intro fuel
  induction fuel with
  | zero => intro exp ts rem e h; simp [parseAuxF] at h
  | succ fuel ih =>
    intro exp ts rem e h
    match ts with
    | [] =>
      unfold parseAuxF at h
      cases hev : EvaluateUsagePolicies exp with
      | error msg => rw [hev] at h; simp [Except.map] at h
      | ok e2 =>
        rw [hev] at h
        simp [Except.map] at h
        simp [h.1]
    | token :: rest =>
      unfold parseAuxF at h
      by_cases hL : goToUpper token = LEFT_PARENS
      · rw [if_pos hL] at h
        cases hc : parseAuxF policyConfig fuel NewCompoundExpression rest with
        | error msg => rw [hc] at h; exact absurd h (by simp)
        | ok pr =>
          obtain ⟨rem1, child⟩ := pr
          rw [hc] at h
          simp only [] at h
          have h1 : rem1.length ≤ rest.length := ih _ _ _ _ hc
          have h2 : rem.length ≤ (rem1.drop 1).length := ih _ _ _ _ h
          have h3 : (rem1.drop 1).length ≤ rem1.length := by
            rw [List.length_drop]; omega
          simp only [List.length_cons]
          omega
      · rw [if_neg hL] at h
        by_cases hR : goToUpper token = RIGHT_PARENS
        · rw [if_pos hR] at h
          cases hev : EvaluateUsagePolicies exp with
          | error msg => rw [hev] at h; simp [Except.map] at h
          | ok e2 =>
            rw [hev] at h
            simp [Except.map] at h
            simp [h.1]
        · rw [if_neg hR] at h
          have step : ∀ exp2, parseAuxF policyConfig fuel exp2 rest = Except.ok (rem, e) →
              rem.length ≤ (token :: rest).length := by
            intro exp2 hh
            have := ih _ _ _ _ hh
            simp only [List.length_cons]
            omega
          by_cases hA : goToUpper token = AND
          · rw [if_pos hA] at h
            by_cases hconj : exp.data.conjunction = ""
            · rw [if_pos hconj] at h; exact step _ h
            · rw [if_neg hconj] at h; exact step _ h
          · rw [if_neg hA] at h
            by_cases hO : goToUpper token = OR
            · rw [if_pos hO] at h
              by_cases hconj : exp.data.conjunction = ""
              · rw [if_pos hconj] at h; exact step _ h
              · rw [if_neg hconj] at h; exact step _ h
            · rw [if_neg hO] at h
              by_cases hW : goToUpper token = WITH
              · rw [if_pos hW] at h
                by_cases hconj : exp.data.conjunction = ""
                · rw [if_pos hconj] at h; exact step _ h
                · rw [if_neg hconj] at h; exact step _ h
              · rw [if_neg hW] at h
                by_cases hconj : exp.data.conjunction = CONJUNCTION_UNDEFINED
                · rw [if_pos hconj] at h
                  cases hfp : findPolicy policyConfig token with
                  | error msg => rw [hfp] at h; exact absurd h (by simp)
                  | ok pr =>
                    obtain ⟨up, pol⟩ := pr
                    rw [hfp] at h
                    exact step _ h
                · rw [if_neg hconj] at h
                  by_cases hsub : exp.data.subsequentConjunction = ""
                  · rw [if_pos hsub] at h
                    cases hfp : findPolicy policyConfig token with
                    | error msg => rw [hfp] at h; exact absurd h (by simp)
                    | ok pr =>
                      obtain ⟨up, pol⟩ := pr
                      rw [hfp] at h
                      exact step _ h
                  · rw [if_neg hsub] at h
                    exact step _ h

/-- Fuel irrelevance: any fuel strictly above the number of remaining tokens
produces the same parse result. -/
theorem parseAuxF_irrel (policyConfig : LicensePolicyConfig) :
    ∀ n ts exp fuel1 fuel2, ts.length ≤ n → ts.length < fuel1 → ts.length < fuel2 →
      parseAuxF policyConfig fuel1 exp ts = parseAuxF policyConfig fuel2 exp ts := by
  intro n
  induction n with
  | zero =>
    intro ts exp fuel1 fuel2 hn h1 h2
    match ts, hn with
    | [], _ =>
      match fuel1, h1 with
      | f1 + 1, _ =>
        match fuel2, h2 with
        | f2 + 1, _ => rfl
  | succ n ih =>
    intro ts exp fuel1 fuel2 hn h1 h2
    match ts with
    | [] =>
      match fuel1, h1 with
      | f1 + 1, _ =>
        match fuel2, h2 with
        | f2 + 1, _ => rfl
    | token :: rest =>
      obtain ⟨f1, rfl⟩ : ∃ f, fuel1 = f + 1 := ⟨fuel1 - 1, by omega⟩
      obtain ⟨f2, rfl⟩ : ∃ f, fuel2 = f + 1 := ⟨fuel2 - 1, by omega⟩
      · have hrn : rest.length ≤ n := by
          have := hn; simp only [List.length_cons] at this; omega
        have hr1 : rest.length < f1 := by
          simp only [List.length_cons] at h1; omega
        have hr2 : rest.length < f2 := by
          simp only [List.length_cons] at h2; omega
        unfold parseAuxF
        by_cases hL : goToUpper token = LEFT_PARENS
        · rw [if_pos hL, if_pos hL]
          rw [ih rest NewCompoundExpression f1 f2 hrn hr1 hr2]
          cases hc : parseAuxF policyConfig f2 NewCompoundExpression rest with
          | error msg => rfl
          | ok pr =>
            obtain ⟨rem, child⟩ := pr
            simp only []
            have hlen : rem.length ≤ rest.length := parseAuxF_length policyConfig _ _ _ _ _ hc
            have hd : (rem.drop 1).length ≤ rem.length := by
              rw [List.length_drop]; omega
            exact ih (rem.drop 1) _ f1 f2 (by omega) (by omega) (by omega)
        · rw [if_neg hL, if_neg hL]
          by_cases hR : goToUpper token = RIGHT_PARENS
          · rw [if_pos hR, if_pos hR]
          · rw [if_neg hR, if_neg hR]
            by_cases hA : goToUpper token = AND
            · rw [if_pos hA, if_pos hA]
              by_cases hconj : exp.data.conjunction = ""
              · rw [if_pos hconj, if_pos hconj]
                exact ih rest _ f1 f2 hrn hr1 hr2
              · rw [if_neg hconj, if_neg hconj]
                exact ih rest _ f1 f2 hrn hr1 hr2
            · rw [if_neg hA, if_neg hA]
              by_cases hO : goToUpper token = OR
              · rw [if_pos hO, if_pos hO]
                by_cases hconj : exp.data.conjunction = ""
                · rw [if_pos hconj, if_pos hconj]
                  exact ih rest _ f1 f2 hrn hr1 hr2
                · rw [if_neg hconj, if_neg hconj]
                  exact ih rest _ f1 f2 hrn hr1 hr2
              · rw [if_neg hO, if_neg hO]
                by_cases hW : goToUpper token = WITH
                · rw [if_pos hW, if_pos hW]
                  by_cases hconj : exp.data.conjunction = ""
                  · rw [if_pos hconj, if_pos hconj]
                    exact ih rest _ f1 f2 hrn hr1 hr2
                  · rw [if_neg hconj, if_neg hconj]
                    exact ih rest _ f1 f2 hrn hr1 hr2
                · rw [if_neg hW, if_neg hW]
                  by_cases hconj : exp.data.conjunction = CONJUNCTION_UNDEFINED
                  · rw [if_pos hconj, if_pos hconj]
                    cases hfp : findPolicy policyConfig token with
                    | error msg => rfl
                    | ok pr =>
                      obtain ⟨up, pol⟩ := pr
                      simp only []
                      exact ih rest _ f1 f2 hrn hr1 hr2
                  · rw [if_neg hconj, if_neg hconj]
                    by_cases hsub : exp.data.subsequentConjunction = ""
                    · rw [if_pos hsub, if_pos hsub]
                      cases hfp : findPolicy policyConfig token with
                      | error msg => rfl
                      | ok pr =>
                        obtain ⟨up, pol⟩ := pr
                        simp only []
                        exact ih rest _ f1 f2 hrn hr1 hr2
                    · rw [if_neg hsub, if_neg hsub]
                      exact ih rest _ f1 f2 hrn hr1 hr2

/-- Parse on an empty suffix evaluates the node. -/
theorem Parse_nil (cfg : LicensePolicyConfig) (exp : CompoundExpression) :
    Parse cfg exp [] = (EvaluateUsagePolicies exp).map (fun e => (([] : List String), e)) := rfl

/-- Parse step on a left parenthesis: parse the group from a fresh node, place
it with lparenUpdate, drop the closing parenthesis, continue. -/
theorem Parse_lparen (cfg : LicensePolicyConfig) (exp : CompoundExpression)
    (token : String) (rest : List String) (hL : goToUpper token = LEFT_PARENS) :
    Parse cfg exp (token :: rest) =
      match Parse cfg NewCompoundExpression rest with
      | Except.error msg => Except.error msg
      | Except.ok (rem, child) => Parse cfg (lparenUpdate exp child) (rem.drop 1) := by
  show parseAuxF cfg (rest.length + 1 + 1) exp (token :: rest) = _
  unfold parseAuxF
  rw [if_pos hL]
  show (match Parse cfg NewCompoundExpression rest with
    | Except.error msg => Except.error msg
    | Except.ok (rem, child) =>
      parseAuxF cfg (rest.length + 1) (lparenUpdate exp child) (rem.drop 1)) = _
  cases hc : Parse cfg NewCompoundExpression rest with
  | error msg => rfl
  | ok pr =>
    obtain ⟨rem, child⟩ := pr
    simp only []
    have hlen : rem.length ≤ rest.length := parseAuxF_length cfg _ _ _ _ _ hc
    have hd : (rem.drop 1).length ≤ rem.length := by
      rw [List.length_drop]; omega
    exact parseAuxF_irrel cfg (rem.drop 1).length _ _ _ _ le_rfl (by omega) (by omega)

/-- Parse step on a right parenthesis: evaluate and return without consuming
the parenthesis. -/
theorem Parse_rparen (cfg : LicensePolicyConfig) (exp : CompoundExpression)
    (token : String) (rest : List String)
    (hL : goToUpper token ≠ LEFT_PARENS) (hR : goToUpper token = RIGHT_PARENS) :
    Parse cfg exp (token :: rest) =
      (EvaluateUsagePolicies exp).map (fun e => (token :: rest, e)) := by
  show parseAuxF cfg (rest.length + 1 + 1) exp (token :: rest) = _
  unfold parseAuxF
  rw [if_neg hL, if_pos hR]

/-- Parse step on a conjunction keyword: the first conjunction fills the
conjunction field, any further one fills subsequentConjunction. -/
theorem Parse_conj (cfg : LicensePolicyConfig) (exp : CompoundExpression)
    (token : String) (rest : List String) (c : String)
    (hc : c = AND ∨ c = OR ∨ c = WITH) (h : goToUpper token = c) :
    Parse cfg exp (token :: rest) =
      Parse cfg
        (if exp.data.conjunction = "" then
          exp.setData { exp.data with
            conjunction := c
            compoundName := exp.data.compoundName ++ " " ++ c }
        else exp.setData { exp.data with subsequentConjunction := c }) rest := by
  rcases hc with rfl | rfl | rfl
  · show parseAuxF cfg (rest.length + 1 + 1) exp (token :: rest) = _
    unfold parseAuxF
    rw [h, if_neg (by decide : ¬ (AND = LEFT_PARENS)),
      if_neg (by decide : ¬ (AND = RIGHT_PARENS)), if_pos (rfl : AND = AND)]
    by_cases hconj : exp.data.conjunction = ""
    · rw [if_pos hconj, if_pos hconj]
      rfl
    · rw [if_neg hconj, if_neg hconj]
      rfl
  · show parseAuxF cfg (rest.length + 1 + 1) exp (token :: rest) = _
    unfold parseAuxF
    rw [h, if_neg (by decide : ¬ (OR = LEFT_PARENS)),
      if_neg (by decide : ¬ (OR = RIGHT_PARENS)), if_neg (by decide : ¬ (OR = AND)),
      if_pos (rfl : OR = OR)]
    by_cases hconj : exp.data.conjunction = ""
    · rw [if_pos hconj, if_pos hconj]
      rfl
    · rw [if_neg hconj, if_neg hconj]
      rfl
  · show parseAuxF cfg (rest.length + 1 + 1) exp (token :: rest) = _
    unfold parseAuxF
    rw [h, if_neg (by decide : ¬ (WITH = LEFT_PARENS)),
      if_neg (by decide : ¬ (WITH = RIGHT_PARENS)), if_neg (by decide : ¬ (WITH = AND)),
      if_neg (by decide : ¬ (WITH = OR)), if_pos (rfl : WITH = WITH)]
    by_cases hconj : exp.data.conjunction = ""
    · rw [if_pos hconj, if_pos hconj]
      rfl
    · rw [if_neg hconj, if_neg hconj]
      rfl

/-- Parse step on a symbol in left-operand position. -/
theorem Parse_sym_left (cfg : LicensePolicyConfig) (exp : CompoundExpression)
    (token : String) (rest : List String)
    (hL : goToUpper token ≠ LEFT_PARENS) (hR : goToUpper token ≠ RIGHT_PARENS)
    (hA : goToUpper token ≠ AND) (hO : goToUpper token ≠ OR) (hW : goToUpper token ≠ WITH)
    (hconj : exp.data.conjunction = CONJUNCTION_UNDEFINED) :
    Parse cfg exp (token :: rest) =
      match findPolicy cfg token with
      | Except.error msg => Except.error msg
      | Except.ok (up, pol) =>
        Parse cfg (exp.setData { exp.data with
          simpleLeft := token
          leftUsagePolicy := up
          leftPolicy := pol
          compoundName := renderPolicyName pol
          urls := exp.data.urls ++ firstUrl pol }) rest := by
  show parseAuxF cfg (rest.length + 1 + 1) exp (token :: rest) = _
  unfold parseAuxF
  rw [if_neg hL, if_neg hR, if_neg hA, if_neg hO, if_neg hW, if_pos hconj]
  rfl

/-- Parse step on a symbol in right-operand position (conjunction set, no
subsequent conjunction). -/
theorem Parse_sym_right (cfg : LicensePolicyConfig) (exp : CompoundExpression)
    (token : String) (rest : List String)
    (hL : goToUpper token ≠ LEFT_PARENS) (hR : goToUpper token ≠ RIGHT_PARENS)
    (hA : goToUpper token ≠ AND) (hO : goToUpper token ≠ OR) (hW : goToUpper token ≠ WITH)
    (hconj : ¬ exp.data.conjunction = CONJUNCTION_UNDEFINED)
    (hsub : exp.data.subsequentConjunction = "") :
    Parse cfg exp (token :: rest) =
      match findPolicy cfg token with
      | Except.error msg => Except.error msg
      | Except.ok (up, pol) =>
        Parse cfg (exp.setData { exp.data with
          simpleRight := token
          rightUsagePolicy := up
          rightPolicy := pol
          compoundName := exp.data.compoundName ++ " " ++ renderPolicyName pol
          urls := exp.data.urls ++ firstUrl pol }) rest := by
  show parseAuxF cfg (rest.length + 1 + 1) exp (token :: rest) = _
  unfold parseAuxF
  rw [if_neg hL, if_neg hR, if_neg hA, if_neg hO, if_neg hW, if_neg hconj, if_pos hsub]
  rfl

/-- Parse step on a symbol in third-operand position (both conjunctions set):
the fold dispatch runs and its error is discarded. -/
theorem Parse_sym_fold (cfg : LicensePolicyConfig) (exp : CompoundExpression)
    (token : String) (rest : List String)
    (hL : goToUpper token ≠ LEFT_PARENS) (hR : goToUpper token ≠ RIGHT_PARENS)
    (hA : goToUpper token ≠ AND) (hO : goToUpper token ≠ OR) (hW : goToUpper token ≠ WITH)
    (hconj : ¬ exp.data.conjunction = CONJUNCTION_UNDEFINED)
    (hsub : ¬ exp.data.subsequentConjunction = "") :
    Parse cfg exp (token :: rest) = Parse cfg (foldStep cfg exp token) rest := by
  show parseAuxF cfg (rest.length + 1 + 1) exp (token :: rest) = _
  unfold parseAuxF
  rw [if_neg hL, if_neg hR, if_neg hA, if_neg hO, if_neg hW, if_neg hconj, if_neg hsub]
  rfl

/-- On a well-formed token sequence the parser consumes exactly that sequence,
whatever the starting node and the policy store: either it aborts with an
error that does not depend on the following tokens, or it reaches a state
that does not depend on them and continues there. -/
theorem Parse_wf_uniform (cfg : LicensePolicyConfig) :
    ∀ b ts, WFTok b ts → ∀ exp,
      (∃ msg, ∀ rest, Parse cfg exp (ts ++ rest) = Except.error msg) ∨
      (∃ expFin, ∀ rest, Parse cfg exp (ts ++ rest) = Parse cfg expFin rest) := by
  intro b ts hwf
  induction hwf with
  | sym s h =>
    intro exp
    obtain ⟨hL, hR, hA, hO, hW⟩ := h
    by_cases hconj : exp.data.conjunction = CONJUNCTION_UNDEFINED
    · cases hfp : findPolicy cfg s with
      | error msg =>
        left
        exact ⟨msg, fun rest => by
          rw [List.singleton_append, Parse_sym_left cfg exp s rest hL hR hA hO hW hconj, hfp]⟩
      | ok pr =>
        right
        obtain ⟨up, pol⟩ := pr
        refine ⟨exp.setData { exp.data with
          simpleLeft := s
          leftUsagePolicy := up
          leftPolicy := pol
          compoundName := renderPolicyName pol
          urls := exp.data.urls ++ firstUrl pol }, fun rest => ?_⟩
        rw [List.singleton_append, Parse_sym_left cfg exp s rest hL hR hA hO hW hconj, hfp]
    · by_cases hsub : exp.data.subsequentConjunction = ""
      · cases hfp : findPolicy cfg s with
        | error msg =>
          left
          exact ⟨msg, fun rest => by
            rw [List.singleton_append, Parse_sym_right cfg exp s rest hL hR hA hO hW hconj hsub, hfp]⟩
        | ok pr =>
          right
          obtain ⟨up, pol⟩ := pr
          refine ⟨exp.setData { exp.data with
            simpleRight := s
            rightUsagePolicy := up
            rightPolicy := pol
            compoundName := exp.data.compoundName ++ " " ++ renderPolicyName pol
            urls := exp.data.urls ++ firstUrl pol }, fun rest => ?_⟩
          rw [List.singleton_append, Parse_sym_right cfg exp s rest hL hR hA hO hW hconj hsub, hfp]
      · right
        exact ⟨foldStep cfg exp s, fun rest => by
          rw [List.singleton_append, Parse_sym_fold cfg exp s rest hL hR hA hO hW hconj hsub]⟩
  | group ts h ih =>
    intro exp
    have hshape : ∀ rest : List String,
        (LEFT_PARENS :: ts ++ [RIGHT_PARENS]) ++ rest = LEFT_PARENS :: (ts ++ RIGHT_PARENS :: rest) := by
      intro rest; simp
    rcases ih NewCompoundExpression with ⟨msg, hmsg⟩ | ⟨expFin, hFin⟩
    · left
      refine ⟨msg, fun rest => ?_⟩
      rw [hshape rest, Parse_lparen cfg exp LEFT_PARENS (ts ++ RIGHT_PARENS :: rest) (by decide),
        hmsg (RIGHT_PARENS :: rest)]
    · cases hev : EvaluateUsagePolicies expFin with
      | error msg =>
        left
        refine ⟨msg, fun rest => ?_⟩
        rw [hshape rest, Parse_lparen cfg exp LEFT_PARENS (ts ++ RIGHT_PARENS :: rest) (by decide),
          hFin (RIGHT_PARENS :: rest),
          Parse_rparen cfg expFin RIGHT_PARENS rest (by decide) (by decide), hev]
        rfl
      | ok ef =>
        right
        refine ⟨lparenUpdate exp ef, fun rest => ?_⟩
        rw [hshape rest, Parse_lparen cfg exp LEFT_PARENS (ts ++ RIGHT_PARENS :: rest) (by decide),
          hFin (RIGHT_PARENS :: rest),
          Parse_rparen cfg expFin RIGHT_PARENS rest (by decide) (by decide), hev]
        rfl
  | single ts h ih => exact ih
  | chain ts c rest2 ht hc hr iht ihr =>
    intro exp
    have hshape : ∀ rest : List String,
        (ts ++ c :: rest2) ++ rest = ts ++ (c :: (rest2 ++ rest)) := by
      intro rest; simp
    rcases iht exp with ⟨msg, hmsg⟩ | ⟨exp1, h1⟩
    · left
      exact ⟨msg, fun rest => by rw [hshape rest, hmsg (c :: (rest2 ++ rest))]⟩
    · have hstep : ∀ rest : List String, Parse cfg exp ((ts ++ c :: rest2) ++ rest) =
          Parse cfg (if exp1.data.conjunction = "" then
            exp1.setData { exp1.data with
              conjunction := goToUpper c
              compoundName := exp1.data.compoundName ++ " " ++ goToUpper c }
          else exp1.setData { exp1.data with subsequentConjunction := goToUpper c })
            (rest2 ++ rest) := by
        intro rest
        rw [hshape rest, h1 (c :: (rest2 ++ rest)),
          Parse_conj cfg exp1 c (rest2 ++ rest) (goToUpper c) hc rfl]
      rcases ihr (if exp1.data.conjunction = "" then
          exp1.setData { exp1.data with
            conjunction := goToUpper c
            compoundName := exp1.data.compoundName ++ " " ++ goToUpper c }
        else exp1.setData { exp1.data with subsequentConjunction := goToUpper c }) with
        ⟨msg, hmsg⟩ | ⟨exp3, h3⟩
      · left
        exact ⟨msg, fun rest => by rw [hstep rest, hmsg rest]⟩
      · right
        exact ⟨exp3, fun rest => by rw [hstep rest, h3 rest]⟩

@[simp] theorem CompoundExpression.data_mk (d : CEData) (l r : Option CompoundExpression) :
    (CompoundExpression.mk d l r).data = d := rfl

@[simp] theorem CompoundExpression.compoundLeft_mk (d : CEData) (l r : Option CompoundExpression) :
    (CompoundExpression.mk d l r).compoundLeft = l := rfl

@[simp] theorem CompoundExpression.compoundRight_mk (d : CEData) (l r : Option CompoundExpression) :
    (CompoundExpression.mk d l r).compoundRight = r := rfl

@[simp] theorem CompoundExpression.data_setData (e : CompoundExpression) (d : CEData) :
    (e.setData d).data = d := rfl

/-- Appending a space and a right parenthesis adds one closing-parenthesis
field at the end, whatever was accumulated. -/
theorem goFieldsAux_append_rparen :
    ∀ (l : List Char) (acc : List Char),
      goFieldsAux (l ++ [' ', ')']) acc = goFieldsAux l acc ++ [[')']] := by
  intro l
  induction l with
  | nil =>
    intro acc
    cases acc with
    | nil => rfl
    | cons a as => rfl
  | cons c cs ih =>
    intro acc
    show goFieldsAux (c :: (cs ++ [' ', ')'])) acc = _
    unfold goFieldsAux
    by_cases hsp : goIsSpace c
    · rw [if_pos hsp, if_pos hsp]
      cases acc with
      | nil => exact ih []
      | cons a as => rw [ih []]; rfl
    · rw [if_neg hsp, if_neg hsp]
      exact ih (c :: acc)

/-- Fields of a wrapped character list: the leading parenthesis-and-space
emits one field, the trailing space-and-parenthesis emits one more. -/
theorem goFields_wrap (l : List Char) :
    goFields ('(' :: ' ' :: (l ++ [' ', ')'])) = ['('] :: goFields l ++ [[')']] := by
  have hstep : goFields ('(' :: ' ' :: (l ++ [' ', ')'])) =
      ['('] :: goFieldsAux (l ++ [' ', ')']) [] := rfl
  rw [hstep, goFieldsAux_append_rparen l []]
  rfl

/-- The parenthesis replacement pass of the tokenizer distributes over a
wrapped string. -/
theorem replace_wrap (l : List Char) :
    goReplaceAllChar (goReplaceAllChar ('(' :: l ++ [')']) '(' ['(', ' ']) ')' [' ', ')'] =
      '(' :: ' ' :: (goReplaceAllChar (goReplaceAllChar l '(' ['(', ' ']) ')' [' ', ')'] ++ [' ', ')']) := by
  unfold goReplaceAllChar
  simp

/-- Tokenizing a string wrapped in one pair of parentheses yields the
parenthesis tokens around the tokens of the string. -/
theorem tokenizeExpression_wrap (s : String) :
    tokenizeExpression ("(" ++ s ++ ")") =
      LEFT_PARENS :: tokenizeExpression s ++ [RIGHT_PARENS] := by
  have hdata : ("(" ++ s ++ ")").data = '(' :: s.data ++ [')'] := by
    simp [String.data_append]
  simp only [tokenizeExpression]
  rw [hdata, replace_wrap, goFields_wrap]
  simp only [List.map_cons, List.map_append]
  rfl

/-- Evaluating a node with no conjunction and an Undefined right side succeeds
and produces the left usage policy when that is defined, and otherwise leaves
the compound policy untouched; in both cases the compound usage policy of a
node whose stored compound policy equals its left policy or is Undefined comes
out as the left usage policy. -/
theorem evaluate_noconj (e : CompoundExpression)
    (hconj : e.data.conjunction = "")
    (hr : e.data.rightUsagePolicy = POLICY_UNDEFINED)
    (hcu : e.data.compoundUsagePolicy = POLICY_UNDEFINED) :
    ∃ e2, EvaluateUsagePolicies e = Except.ok e2 ∧
      e2.data.compoundUsagePolicy = e.data.leftUsagePolicy := by
  unfold EvaluateUsagePolicies
  rw [hconj]
  rw [if_neg (by decide : ¬ ((("" : String)) = AND)),
    if_neg (by decide : ¬ ((("" : String)) = OR)),
    if_neg (by decide : ¬ ((("" : String)) = WITH)),
    if_pos (by rfl : ("" : String) = CONJUNCTION_UNDEFINED)]
  by_cases hl : e.data.leftUsagePolicy = POLICY_UNDEFINED
  · rw [if_neg (by simp [hl, hr])]
    exact ⟨e, rfl, by rw [hcu, hl]⟩
  · rw [if_pos ⟨hl, hr⟩]
    exact ⟨_, rfl, rfl⟩

/-- Parse result of a well-formed expression wrapped in one extra pair of
parentheses: the child group reproduces the unwrapped run, and the bare-group
evaluation hands the child compound policy up unchanged. -/
theorem parseExpression_wrap_eq (cfg : LicensePolicyConfig) (s : String)
    (hwf : WFTok false (tokenizeExpression s)) :
    (ParseExpression cfg ("(" ++ s ++ ")")).map (fun e => e.data.compoundUsagePolicy) =
      (ParseExpression cfg s).map (fun e => e.data.compoundUsagePolicy) := by
  unfold ParseExpression
  rw [tokenizeExpression_wrap]
  rw [show LEFT_PARENS :: tokenizeExpression s ++ [RIGHT_PARENS] =
    LEFT_PARENS :: (tokenizeExpression s ++ [RIGHT_PARENS]) from rfl]
  rw [Parse_lparen cfg NewCompoundExpression LEFT_PARENS
    (tokenizeExpression s ++ [RIGHT_PARENS]) (by decide)]
  rcases Parse_wf_uniform cfg false (tokenizeExpression s) hwf NewCompoundExpression with
    ⟨msg, hmsg⟩ | ⟨expFin, hFin⟩
  · have hs : Parse cfg NewCompoundExpression (tokenizeExpression s) = Except.error msg := by
      have h0 := hmsg []
      rwa [List.append_nil] at h0
    rw [hmsg [RIGHT_PARENS], hs]
  · have hs : Parse cfg NewCompoundExpression (tokenizeExpression s) = Parse cfg expFin [] := by
      have h0 := hFin []
      rwa [List.append_nil] at h0
    rw [hFin [RIGHT_PARENS], hs, Parse_nil,
      Parse_rparen cfg expFin RIGHT_PARENS [] (by decide) (by decide)]
    cases hev : EvaluateUsagePolicies expFin with
    | error msg => rfl
    | ok ef =>
      simp only [Except.map]
      rw [show (List.drop 1 [RIGHT_PARENS]) = ([] : List String) from rfl, Parse_nil]
      obtain ⟨e2, he2, hq⟩ := evaluate_noconj (lparenUpdate NewCompoundExpression ef)
        (by rfl) (by rfl) (by rfl)
      rw [he2]
      simp only [Except.map]
      rw [hq]
      rfl

/-- A defined conjunction is not the undefined (empty) one. -/
theorem conjSet_ne_empty {c : String} (h : conjSet c) : c ≠ "" := by
  rcases h with rfl | rfl | rfl <;> decide

/-- Evaluating a node whose two sides carry the same allow or deny policy
under a defined conjunction reproduces that policy. -/
theorem evaluate_const_sides (e : CompoundExpression) (p : String)
    (hp : p = POLICY_ALLOW ∨ p = POLICY_DENY)
    (hl : e.data.leftUsagePolicy = p) (hr : e.data.rightUsagePolicy = p)
    (hc : conjSet e.data.conjunction) :
    EvaluateUsagePolicies e = Except.ok (setCompoundUsagePolicy e p) := by
  unfold EvaluateUsagePolicies
  rcases hc with hc | hc | hc <;> rw [hc, hl, hr] <;> rcases hp with rfl | rfl <;>
    simp [AND, OR, WITH, POLICY_ALLOW, POLICY_DENY, POLICY_UNDEFINED, POLICY_NEEDS_REVIEW]

/-- Evaluating a node with no conjunction, a defined left side and an
Undefined right side copies the left policy into the compound policy. -/
theorem evaluate_noconj_defined (e : CompoundExpression)
    (hconj : e.data.conjunction = "")
    (hr : e.data.rightUsagePolicy = POLICY_UNDEFINED)
    (hl : e.data.leftUsagePolicy ≠ POLICY_UNDEFINED) :
    EvaluateUsagePolicies e =
      Except.ok (setCompoundUsagePolicy e e.data.leftUsagePolicy) := by
  unfold EvaluateUsagePolicies
  rw [hconj]
  rw [if_neg (by decide : ¬ ((("" : String)) = AND)),
    if_neg (by decide : ¬ ((("" : String)) = OR)),
    if_neg (by decide : ¬ ((("" : String)) = WITH)),
    if_pos (by rfl : ("" : String) = CONJUNCTION_UNDEFINED),
    if_pos (⟨hl, hr⟩ : e.data.leftUsagePolicy ≠ POLICY_UNDEFINED ∧
      e.data.rightUsagePolicy = POLICY_UNDEFINED)]

/-- Evaluating any post-term node produces the constant policy. -/
theorem evaluate_post (p : String) (e : CompoundExpression)
    (hp : p = POLICY_ALLOW ∨ p = POLICY_DENY) (hpost : PostState p e) :
    ∃ ef, EvaluateUsagePolicies e = Except.ok ef ∧ ef.data.compoundUsagePolicy = p := by
  have hpu : p ≠ POLICY_UNDEFINED := by rcases hp with rfl | rfl <;> decide
  rcases hpost with ⟨hl, hconj, hr, _⟩ | ⟨hl, hconj, hr, _⟩
  · refine ⟨_, evaluate_noconj_defined e hconj hr (by rw [hl]; exact hpu), ?_⟩
    show e.data.leftUsagePolicy = p
    exact hl
  · exact ⟨_, evaluate_const_sides e p hp hl hr hconj, rfl⟩

/-- Field tracking through a left fold with constant-policy sides: the folded
node carries the policy on both sides under the new conjunction, with the
subsequent conjunction cleared. -/
theorem FoldLeftAndAppendRight_fields (cfg : LicensePolicyConfig) (exp : CompoundExpression)
    (conj tok p : String) (pol : LicensePolicy)
    (hp : p = POLICY_ALLOW ∨ p = POLICY_DENY)
    (hfp : findPolicy cfg tok = Except.ok (p, pol))
    (hl : exp.data.leftUsagePolicy = p) (hc : conjSet exp.data.conjunction)
    (hr : exp.data.rightUsagePolicy = p) :
    (FoldLeftAndAppendRight cfg exp conj tok).1.data.leftUsagePolicy = p ∧
    (FoldLeftAndAppendRight cfg exp conj tok).1.data.conjunction = conj ∧
    (FoldLeftAndAppendRight cfg exp conj tok).1.data.rightUsagePolicy = p ∧
    (FoldLeftAndAppendRight cfg exp conj tok).1.data.subsequentConjunction = "" := by
  have hev := evaluate_const_sides (CopyCompoundExpression exp) p hp hl hr hc
  unfold FoldLeftAndAppendRight
  rw [hev, hfp]
  exact ⟨rfl, rfl, rfl, rfl⟩

/-- Field projections of the constructed right-fold child: it takes the old
right usage policy on its left, the given conjunction, and the looked-up
policy on its right. -/
theorem foldRightChild_fields (exp : CompoundExpression) (conj tok up : String)
    (pol : LicensePolicy) :
    (foldRightChild exp conj tok up pol).data.leftUsagePolicy = exp.data.rightUsagePolicy ∧
    (foldRightChild exp conj tok up pol).data.conjunction = conj ∧
    (foldRightChild exp conj tok up pol).data.rightUsagePolicy = up := by
  have hname : ∀ e c1 : CompoundExpression,
      (foldRightChildName e c1).data.leftUsagePolicy = c1.data.leftUsagePolicy ∧
      (foldRightChildName e c1).data.conjunction = c1.data.conjunction ∧
      (foldRightChildName e c1).data.rightUsagePolicy = c1.data.rightUsagePolicy := by
    intro e c1
    unfold foldRightChildName
    cases e.compoundRight with
    | some oldRight => exact ⟨rfl, rfl, rfl⟩
    | none =>
      dsimp only
      cases e.data.rightPolicy.urls with
      | nil => exact ⟨rfl, rfl, rfl⟩
      | cons u us => exact ⟨rfl, rfl, rfl⟩
  have hurls : ∀ e c3 : CompoundExpression,
      (foldRightChildUrls e c3).data.leftUsagePolicy = c3.data.leftUsagePolicy ∧
      (foldRightChildUrls e c3).data.conjunction = c3.data.conjunction ∧
      (foldRightChildUrls e c3).data.rightUsagePolicy = c3.data.rightUsagePolicy := by
    intro e c3
    unfold foldRightChildUrls
    cases c3.data.rightPolicy.urls with
    | nil => exact ⟨rfl, rfl, rfl⟩
    | cons u us => exact ⟨rfl, rfl, rfl⟩
  unfold foldRightChild
  obtain ⟨u1, u2, u3⟩ := hurls exp _
  refine ⟨u1.trans ?_, u2.trans ?_, u3.trans ?_⟩
  · exact ((hname exp _).1.trans rfl)
  · exact ((hname exp _).2.1.trans rfl)
  · exact ((hname exp _).2.2.trans rfl)

/-- Field tracking through a right fold with a constant-policy right side: the
node keeps its left side and conjunction, receives the policy as its new right
side, and clears the subsequent conjunction. -/
theorem FoldAndAppendRight_fields (cfg : LicensePolicyConfig) (exp : CompoundExpression)
    (conj tok p : String) (pol : LicensePolicy)
    (hp : p = POLICY_ALLOW ∨ p = POLICY_DENY)
    (hfp : findPolicy cfg tok = Except.ok (p, pol))
    (hcj : conjSet conj)
    (hr : exp.data.rightUsagePolicy = p) :
    (FoldAndAppendRight cfg exp conj tok).1.data.leftUsagePolicy = exp.data.leftUsagePolicy ∧
    (FoldAndAppendRight cfg exp conj tok).1.data.conjunction = exp.data.conjunction ∧
    (FoldAndAppendRight cfg exp conj tok).1.data.rightUsagePolicy = p ∧
    (FoldAndAppendRight cfg exp conj tok).1.data.subsequentConjunction = "" := by
  obtain ⟨h1, h2, h3⟩ := foldRightChild_fields exp conj tok p pol
  have hev := evaluate_const_sides (foldRightChild exp conj tok p pol) p hp
    (h1.trans hr) h3 (by rw [h2]; exact hcj)
  unfold FoldAndAppendRight
  rw [hfp]
  dsimp only
  rw [hev]
  exact ⟨rfl, rfl, rfl, rfl⟩

/-- A third simple operand arriving with both conjunctions set folds the node
back into a post-term shape when both sides carry the constant policy and the
lookup yields it as well. -/
theorem foldStep_post (cfg : LicensePolicyConfig) (p : String) (exp : CompoundExpression)
    (tok : String) (pol : LicensePolicy)
    (hp : p = POLICY_ALLOW ∨ p = POLICY_DENY)
    (hfp : findPolicy cfg tok = Except.ok (p, pol))
    (hl : exp.data.leftUsagePolicy = p) (hc : conjSet exp.data.conjunction)
    (hr : exp.data.rightUsagePolicy = p) (hs : conjSet exp.data.subsequentConjunction) :
    PostState p (foldStep cfg exp tok) := by
  have hcs : conjSet exp.data.conjunction := hc
  unfold foldStep
  rcases hc with hc | hc | hc <;> rcases hs with hs | hs | hs
  · rw [if_pos (⟨hc, hs⟩ : _ ∧ _)]
    obtain ⟨a, b, c, d⟩ := FoldLeftAndAppendRight_fields cfg exp AND tok p pol hp hfp hl hcs hr
    exact Or.inr ⟨a, by rw [b]; exact Or.inl rfl, c, Or.inl d⟩
  · rw [if_neg (by rw [hc, hs]; decide), if_pos (⟨hc, hs⟩ : _ ∧ _)]
    obtain ⟨a, b, c, d⟩ := FoldLeftAndAppendRight_fields cfg exp OR tok p pol hp hfp hl hcs hr
    exact Or.inr ⟨a, by rw [b]; exact Or.inr (Or.inl rfl), c, Or.inl d⟩
  · rw [if_neg (by rw [hc, hs]; decide), if_neg (by rw [hc, hs]; decide),
      if_pos (⟨hc, hs⟩ : _ ∧ _)]
    obtain ⟨a, b, c, d⟩ := FoldAndAppendRight_fields cfg exp WITH tok p pol hp hfp
      (Or.inr (Or.inr rfl)) hr
    exact Or.inr ⟨a.trans hl, by rw [b]; exact hcs, c, Or.inl d⟩
  · rw [if_neg (by rw [hc, hs]; decide), if_neg (by rw [hc, hs]; decide),
      if_neg (by rw [hc, hs]; decide), if_pos (⟨hc, hs⟩ : _ ∧ _)]
    obtain ⟨a, b, c, d⟩ := FoldAndAppendRight_fields cfg exp AND tok p pol hp hfp
      (Or.inl rfl) hr
    exact Or.inr ⟨a.trans hl, by rw [b]; exact hcs, c, Or.inl d⟩
  · rw [if_neg (by rw [hc, hs]; decide), if_neg (by rw [hc, hs]; decide),
      if_neg (by rw [hc, hs]; decide), if_neg (by rw [hc, hs]; decide),
      if_pos (⟨hc, hs⟩ : _ ∧ _)]
    obtain ⟨a, b, c, d⟩ := FoldAndAppendRight_fields cfg exp OR tok p pol hp hfp
      (Or.inr (Or.inl rfl)) hr
    exact Or.inr ⟨a.trans hl, by rw [b]; exact hcs, c, Or.inl d⟩
  · rw [if_neg (by rw [hc, hs]; decide), if_neg (by rw [hc, hs]; decide),
      if_neg (by rw [hc, hs]; decide), if_neg (by rw [hc, hs]; decide),
      if_neg (by rw [hc, hs]; decide), if_pos (⟨hc, hs⟩ : _ ∧ _)]
    obtain ⟨a, b, c, d⟩ := FoldAndAppendRight_fields cfg exp WITH tok p pol hp hfp
      (Or.inr (Or.inr rfl)) hr
    exact Or.inr ⟨a.trans hl, by rw [b]; exact hcs, c, Or.inl d⟩
  · rw [if_neg (by rw [hc, hs]; decide), if_neg (by rw [hc, hs]; decide),
      if_neg (by rw [hc, hs]; decide), if_neg (by rw [hc, hs]; decide),
      if_neg (by rw [hc, hs]; decide), if_neg (by rw [hc, hs]; decide),
      if_pos (⟨hc, hs⟩ : _ ∧ _)]
    obtain ⟨a, b, c, d⟩ := FoldLeftAndAppendRight_fields cfg exp AND tok p pol hp hfp hl hcs hr
    exact Or.inr ⟨a, by rw [b]; exact Or.inl rfl, c, Or.inl d⟩
  · rw [if_neg (by rw [hc, hs]; decide), if_neg (by rw [hc, hs]; decide),
      if_neg (by rw [hc, hs]; decide), if_neg (by rw [hc, hs]; decide),
      if_neg (by rw [hc, hs]; decide), if_neg (by rw [hc, hs]; decide),
      if_neg (by rw [hc, hs]; decide), if_pos (⟨hc, hs⟩ : _ ∧ _)]
    obtain ⟨a, b, c, d⟩ := FoldLeftAndAppendRight_fields cfg exp OR tok p pol hp hfp hl hcs hr
    exact Or.inr ⟨a, by rw [b]; exact Or.inr (Or.inl rfl), c, Or.inl d⟩
  · rw [if_neg (by rw [hc, hs]; decide), if_neg (by rw [hc, hs]; decide),
      if_neg (by rw [hc, hs]; decide), if_neg (by rw [hc, hs]; decide),
      if_neg (by rw [hc, hs]; decide), if_neg (by rw [hc, hs]; decide),
      if_neg (by rw [hc, hs]; decide), if_neg (by rw [hc, hs]; decide),
      if_pos (⟨hc, hs⟩ : _ ∧ _)]
    obtain ⟨a, b, c, d⟩ := FoldAndAppendRight_fields cfg exp OR tok p pol hp hfp
      (Or.inr (Or.inl rfl)) hr
    exact Or.inr ⟨a.trans hl, by rw [b]; exact hcs, c, Or.inl d⟩

/-- Master run lemma for constant-policy stores: consuming a well-formed term
or expression whose leaves all resolve to the constant allow or deny policy
moves the parser from any pre-term state to a post-term state, independently
of what follows. -/
theorem Parse_wf_const (cfg : LicensePolicyConfig) (p : String)
    (hp : p = POLICY_ALLOW ∨ p = POLICY_DENY) :
    ∀ b ts, WFTok b ts →
      (∀ t ∈ ts, IsSymTok t → ∃ pol, findPolicy cfg t = Except.ok (p, pol)) →
      ∀ exp, PreState p exp →
        ∃ expFin, (∀ rest, Parse cfg exp (ts ++ rest) = Parse cfg expFin rest) ∧
          PostState p expFin := by
  intro b ts hwf
  induction hwf with
  | sym s h =>
    intro hleaf exp hpre
    obtain ⟨pol, hfp⟩ := hleaf s (by simp) h
    obtain ⟨hL, hR, hA, hO, hW⟩ := h
    rcases hpre with rfl | ⟨hl, hcj, hrest⟩
    · refine ⟨NewCompoundExpression.setData { NewCompoundExpression.data with
        simpleLeft := s
        leftUsagePolicy := p
        leftPolicy := pol
        compoundName := renderPolicyName pol
        urls := NewCompoundExpression.data.urls ++ firstUrl pol }, fun rest => ?_, ?_⟩
      · rw [List.singleton_append,
          Parse_sym_left cfg NewCompoundExpression s rest hL hR hA hO hW rfl, hfp]
      · exact Or.inl ⟨rfl, rfl, rfl, rfl⟩
    · rcases hrest with ⟨hru, hsub⟩ | ⟨hrp, hsubc⟩
      · refine ⟨exp.setData { exp.data with
          simpleRight := s
          rightUsagePolicy := p
          rightPolicy := pol
          compoundName := exp.data.compoundName ++ " " ++ renderPolicyName pol
          urls := exp.data.urls ++ firstUrl pol }, fun rest => ?_, ?_⟩
        · rw [List.singleton_append,
            Parse_sym_right cfg exp s rest hL hR hA hO hW (conjSet_ne_empty hcj) hsub, hfp]
        · exact Or.inr ⟨hl, hcj, rfl, Or.inl hsub⟩
      · refine ⟨foldStep cfg exp s, fun rest => ?_, ?_⟩
        · rw [List.singleton_append,
            Parse_sym_fold cfg exp s rest hL hR hA hO hW (conjSet_ne_empty hcj)
              (conjSet_ne_empty hsubc)]
        · exact foldStep_post cfg p exp s pol hp hfp hl hcj hrp hsubc
  | group ts h ih =>
    intro hleaf exp hpre
    have hleaf2 : ∀ t ∈ ts, IsSymTok t → ∃ pol, findPolicy cfg t = Except.ok (p, pol) := by
      intro t ht0 hsym
      exact hleaf t (by simp [ht0]) hsym
    obtain ⟨expFin, hrun, hpost⟩ := ih hleaf2 NewCompoundExpression (Or.inl rfl)
    obtain ⟨ef, hev, hefp⟩ := evaluate_post p expFin hp hpost
    refine ⟨lparenUpdate exp ef, fun rest => ?_, ?_⟩
    · have hsh : (LEFT_PARENS :: ts ++ [RIGHT_PARENS]) ++ rest =
          LEFT_PARENS :: (ts ++ RIGHT_PARENS :: rest) := by simp
      rw [hsh, Parse_lparen cfg exp LEFT_PARENS (ts ++ RIGHT_PARENS :: rest) (by decide),
        hrun (RIGHT_PARENS :: rest),
        Parse_rparen cfg expFin RIGHT_PARENS rest (by decide) (by decide), hev]
      rfl
    · rcases hpre with rfl | ⟨hl, hcj, hrest⟩
      · unfold lparenUpdate
        rw [if_pos (by rfl : NewCompoundExpression.data.conjunction = "")]
        exact Or.inl ⟨hefp, rfl, rfl, rfl⟩
      · unfold lparenUpdate
        rw [if_neg (conjSet_ne_empty hcj)]
        refine Or.inr ⟨hl, hcj, hefp, ?_⟩
        rcases hrest with ⟨_, hsub⟩ | ⟨_, hsubc⟩
        · exact Or.inl hsub
        · exact Or.inr hsubc
  | single ts h ih => exact ih
  | chain ts c rest2 ht hcj hr iht ihr =>
    intro hleaf exp hpre
    have hleafT : ∀ t ∈ ts, IsSymTok t → ∃ pol, findPolicy cfg t = Except.ok (p, pol) := by
      intro t ht0 hsym
      exact hleaf t (by simp [ht0]) hsym
    have hleafR : ∀ t ∈ rest2, IsSymTok t → ∃ pol, findPolicy cfg t = Except.ok (p, pol) := by
      intro t ht0 hsym
      exact hleaf t (by simp [ht0]) hsym
    obtain ⟨exp1, h1, hpost1⟩ := iht hleafT exp hpre
    have hshape : ∀ rest : List String,
        (ts ++ c :: rest2) ++ rest = ts ++ (c :: (rest2 ++ rest)) := by
      intro rest; simp
    rcases hpost1 with ⟨ha, hb, hcu, hd⟩ | ⟨ha, hb, hcu, hd⟩
    · obtain ⟨exp3, h3, hpost3⟩ := ihr hleafR
        (exp1.setData { exp1.data with
          conjunction := goToUpper c
          compoundName := exp1.data.compoundName ++ " " ++ goToUpper c })
        (Or.inr ⟨ha, hcj, Or.inl ⟨hcu, hd⟩⟩)
      refine ⟨exp3, fun rest => ?_, hpost3⟩
      rw [hshape rest, h1 (c :: (rest2 ++ rest)),
        Parse_conj cfg exp1 c (rest2 ++ rest) (goToUpper c) hcj rfl, if_pos hb, h3 rest]
    · obtain ⟨exp3, h3, hpost3⟩ := ihr hleafR
        (exp1.setData { exp1.data with subsequentConjunction := goToUpper c })
        (Or.inr ⟨ha, hb, Or.inr ⟨hcu, hcj⟩⟩)
      refine ⟨exp3, fun rest => ?_, hpost3⟩
      rw [hshape rest, h1 (c :: (rest2 ++ rest)),
        Parse_conj cfg exp1 c (rest2 ++ rest) (goToUpper c) hcj rfl,
        if_neg (conjSet_ne_empty hb), h3 rest]

/-- C1: for every pair of usage-policy values placed in left_usage_policy and
right_usage_policy and every conjunction setting (AND, OR, WITH or none),
EvaluateUsagePolicies returns without error and sets compound_usage_policy
exactly per the section 4.4 reference algebra. -/
theorem evaluateUsagePolicies_matches_reference (l r c : String)
    (hl : l ∈ [POLICY_ALLOW, POLICY_DENY, POLICY_NEEDS_REVIEW, POLICY_UNDEFINED])
    (hr : r ∈ [POLICY_ALLOW, POLICY_DENY, POLICY_NEEDS_REVIEW, POLICY_UNDEFINED])
    (hc : c ∈ [AND, OR, WITH, CONJUNCTION_UNDEFINED]) :
    EvaluateUsagePolicies (mkEvalNode l r c) =
      Except.ok (setCompoundUsagePolicy (mkEvalNode l r c) (refCompoundPolicy l r c)) := by
  fin_cases hl <;> fin_cases hr <;> fin_cases hc <;> rfl

/-- C1 witness: the AND conjunction of Deny with Undefined evaluates without
error to Deny, as the reference algebra demands. -/
theorem evaluateUsagePolicies_matches_reference_witness :
    EvaluateUsagePolicies (mkEvalNode POLICY_DENY POLICY_UNDEFINED AND) =
      Except.ok (setCompoundUsagePolicy (mkEvalNode POLICY_DENY POLICY_UNDEFINED AND)
        (refCompoundPolicy POLICY_DENY POLICY_UNDEFINED AND)) ∧
    refCompoundPolicy POLICY_DENY POLICY_UNDEFINED AND = POLICY_DENY :=
  ⟨evaluateUsagePolicies_matches_reference POLICY_DENY POLICY_UNDEFINED AND
    (by decide) (by decide) (by decide), by decide⟩

@[simp] theorem setCompoundUsagePolicy_conj (e : CompoundExpression) (v : String) :
    (setCompoundUsagePolicy e v).data.conjunction = e.data.conjunction := rfl

@[simp] theorem setCompoundUsagePolicy_left (e : CompoundExpression) (v : String) :
    (setCompoundUsagePolicy e v).data.leftUsagePolicy = e.data.leftUsagePolicy := rfl

@[simp] theorem setCompoundUsagePolicy_right (e : CompoundExpression) (v : String) :
    (setCompoundUsagePolicy e v).data.rightUsagePolicy = e.data.rightUsagePolicy := rfl

/-- Re-evaluating an already evaluated node changes nothing: evaluation only
reads the usage-policy sides and the conjunction, which writing the compound
policy leaves untouched. -/
theorem evaluate_idem (e : CompoundExpression) (v : String)
    (h : EvaluateUsagePolicies e = Except.ok (setCompoundUsagePolicy e v)) :
    EvaluateUsagePolicies (setCompoundUsagePolicy e v) =
      Except.ok (setCompoundUsagePolicy e v) := by
  unfold EvaluateUsagePolicies at h ⊢
  simp only [setCompoundUsagePolicy_conj, setCompoundUsagePolicy_left,
    setCompoundUsagePolicy_right] at h ⊢
  split_ifs at h ⊢ <;> first | exact h | rfl

/-- Complete field tracking for the constructed right-fold child: the policy
and operand fields the claim describes survive the name and url bookkeeping. -/
theorem foldRightChild_shape (exp : CompoundExpression) (conj tok up : String)
    (pol : LicensePolicy) :
    (foldRightChild exp conj tok up pol).data.simpleLeft = exp.data.simpleRight ∧
    (foldRightChild exp conj tok up pol).compoundLeft = exp.compoundRight ∧
    (foldRightChild exp conj tok up pol).data.leftUsagePolicy = exp.data.rightUsagePolicy ∧
    (foldRightChild exp conj tok up pol).data.conjunction = conj ∧
    (foldRightChild exp conj tok up pol).data.simpleRight = tok ∧
    (foldRightChild exp conj tok up pol).data.rightUsagePolicy = up := by
  have hname : ∀ e c1 : CompoundExpression,
      (foldRightChildName e c1).data.simpleLeft = c1.data.simpleLeft ∧
      (foldRightChildName e c1).compoundLeft = c1.compoundLeft ∧
      (foldRightChildName e c1).data.leftUsagePolicy = c1.data.leftUsagePolicy ∧
      (foldRightChildName e c1).data.conjunction = c1.data.conjunction ∧
      (foldRightChildName e c1).data.simpleRight = c1.data.simpleRight ∧
      (foldRightChildName e c1).data.rightUsagePolicy = c1.data.rightUsagePolicy := by
    intro e c1
    unfold foldRightChildName
    cases e.compoundRight with
    | some oldRight => exact ⟨rfl, rfl, rfl, rfl, rfl, rfl⟩
    | none =>
      dsimp only
      cases e.data.rightPolicy.urls with
      | nil => exact ⟨rfl, rfl, rfl, rfl, rfl, rfl⟩
      | cons u us => exact ⟨rfl, rfl, rfl, rfl, rfl, rfl⟩
  have hurls : ∀ e c3 : CompoundExpression,
      (foldRightChildUrls e c3).data.simpleLeft = c3.data.simpleLeft ∧
      (foldRightChildUrls e c3).compoundLeft = c3.compoundLeft ∧
      (foldRightChildUrls e c3).data.leftUsagePolicy = c3.data.leftUsagePolicy ∧
      (foldRightChildUrls e c3).data.conjunction = c3.data.conjunction ∧
      (foldRightChildUrls e c3).data.simpleRight = c3.data.simpleRight ∧
      (foldRightChildUrls e c3).data.rightUsagePolicy = c3.data.rightUsagePolicy := by
    intro e c3
    unfold foldRightChildUrls
    cases c3.data.rightPolicy.urls with
    | nil => exact ⟨rfl, rfl, rfl, rfl, rfl, rfl⟩
    | cons u us => exact ⟨rfl, rfl, rfl, rfl, rfl, rfl⟩
  unfold foldRightChild
  obtain ⟨u1, u2, u3, u4, u5, u6⟩ := hurls exp _
  obtain ⟨n1, n2, n3, n4, n5, n6⟩ := hname exp _
  exact ⟨u1.trans (n1.trans rfl), u2.trans (n2.trans rfl), u3.trans (n3.trans rfl),
    u4.trans (n4.trans rfl), u5.trans (n5.trans rfl), u6.trans (n6.trans rfl)⟩

/-- A successful left fold produces exactly the left-fold shape. -/
theorem FoldLeftAndAppendRight_shape (cfg : LicensePolicyConfig)
    (exp : CompoundExpression) (newConj tok up : String) (pol : LicensePolicy)
    (hc : conjSet exp.data.conjunction)
    (hfp : findPolicy cfg tok = Except.ok (up, pol)) :
    LeftFoldShape exp (FoldLeftAndAppendRight cfg exp newConj tok).1 tok newConj := by
  obtain ⟨v, hv⟩ := evaluate_ok_of_conj (CopyCompoundExpression exp) (Or.inr hc)
  unfold FoldLeftAndAppendRight
  rw [hv, hfp]
  exact ⟨setCompoundUsagePolicy (CopyCompoundExpression exp) v, hv, evaluate_idem _ v hv,
    rfl, rfl, rfl, rfl, rfl, rfl, rfl, rfl, rfl, rfl, rfl⟩

/-- A successful right append produces exactly the append-right shape. -/
theorem FoldAndAppendRight_shape (cfg : LicensePolicyConfig)
    (exp : CompoundExpression) (childConj tok up : String) (pol : LicensePolicy)
    (hc : conjSet childConj)
    (hfp : findPolicy cfg tok = Except.ok (up, pol)) :
    AppendRightShape exp (FoldAndAppendRight cfg exp childConj tok).1 tok childConj := by
  obtain ⟨s1, s2, s3, s4, s5, s6⟩ := foldRightChild_shape exp childConj tok up pol
  obtain ⟨v, hv⟩ := evaluate_ok_of_conj (foldRightChild exp childConj tok up pol)
    (Or.inr (by rw [s4]; exact hc))
  unfold FoldAndAppendRight
  rw [hfp]
  dsimp only
  rw [hv]
  exact ⟨setCompoundUsagePolicy (foldRightChild exp childConj tok up pol) v,
    evaluate_idem _ v hv, rfl, rfl, rfl, rfl, rfl, rfl, rfl, rfl, s1, s2, s3, s4, s5⟩

/-- C2: when a third operand token arrives while both conjunction and
subsequent_conjunction are set, Parse reshapes the node exactly per the
section 4.3 decision table: AND/AND, AND/OR, WITH/AND and WITH/OR left-fold
with the subsequent conjunction; OR with anything, and AND/WITH, append a
right child under the subsequent conjunction; WITH/WITH appends the right
pair under OR, not WITH; every fold leaves the produced child evaluated and
clears subsequent_conjunction. -/
theorem parse_third_operand_fold_table (cfg : LicensePolicyConfig)
    (exp : CompoundExpression) (t : String) (rest : List String) (up : String)
    (pol : LicensePolicy)
    (h1 : conjSet exp.data.conjunction) (h2 : conjSet exp.data.subsequentConjunction)
    (hsym : IsSymTok t)
    (hfp : findPolicy cfg t = Except.ok (up, pol)) :
    Parse cfg exp (t :: rest) = Parse cfg (foldStep cfg exp t) rest ∧
    (((exp.data.conjunction = AND ∨ exp.data.conjunction = WITH) ∧
       (exp.data.subsequentConjunction = AND ∨ exp.data.subsequentConjunction = OR)) →
      LeftFoldShape exp (foldStep cfg exp t) t exp.data.subsequentConjunction) ∧
    ((exp.data.conjunction = OR ∨
       (exp.data.conjunction = AND ∧ exp.data.subsequentConjunction = WITH)) →
      AppendRightShape exp (foldStep cfg exp t) t exp.data.subsequentConjunction) ∧
    ((exp.data.conjunction = WITH ∧ exp.data.subsequentConjunction = WITH) →
      AppendRightShape exp (foldStep cfg exp t) t OR) := by
  obtain ⟨hL, hR, hA, hO, hW⟩ := hsym
  refine ⟨Parse_sym_fold cfg exp t rest hL hR hA hO hW
    (conjSet_ne_empty h1) (conjSet_ne_empty h2), ?_, ?_, ?_⟩
  · rintro ⟨hc | hc, hs | hs⟩ <;> rw [hs] <;> unfold foldStep
    · rw [if_pos (⟨hc, hs⟩ : _ ∧ _)]
      exact FoldLeftAndAppendRight_shape cfg exp AND t up pol h1 hfp
    · rw [if_neg (by rw [hc, hs]; decide), if_pos (⟨hc, hs⟩ : _ ∧ _)]
      exact FoldLeftAndAppendRight_shape cfg exp OR t up pol h1 hfp
    · rw [if_neg (by rw [hc, hs]; decide), if_neg (by rw [hc, hs]; decide),
        if_neg (by rw [hc, hs]; decide), if_neg (by rw [hc, hs]; decide),
        if_neg (by rw [hc, hs]; decide), if_neg (by rw [hc, hs]; decide),
        if_pos (⟨hc, hs⟩ : _ ∧ _)]
      exact FoldLeftAndAppendRight_shape cfg exp AND t up pol h1 hfp
    · rw [if_neg (by rw [hc, hs]; decide), if_neg (by rw [hc, hs]; decide),
        if_neg (by rw [hc, hs]; decide), if_neg (by rw [hc, hs]; decide),
        if_neg (by rw [hc, hs]; decide), if_neg (by rw [hc, hs]; decide),
        if_neg (by rw [hc, hs]; decide), if_pos (⟨hc, hs⟩ : _ ∧ _)]
      exact FoldLeftAndAppendRight_shape cfg exp OR t up pol h1 hfp
  · rintro (hc | ⟨hc, hs⟩)
    · rcases h2 with hs | hs | hs <;> rw [hs] <;> unfold foldStep
      · rw [if_neg (by rw [hc, hs]; decide), if_neg (by rw [hc, hs]; decide),
          if_neg (by rw [hc, hs]; decide), if_pos (⟨hc, hs⟩ : _ ∧ _)]
        exact FoldAndAppendRight_shape cfg exp AND t up pol (Or.inl rfl) hfp
      · rw [if_neg (by rw [hc, hs]; decide), if_neg (by rw [hc, hs]; decide),
          if_neg (by rw [hc, hs]; decide), if_neg (by rw [hc, hs]; decide),
          if_pos (⟨hc, hs⟩ : _ ∧ _)]
        exact FoldAndAppendRight_shape cfg exp OR t up pol (Or.inr (Or.inl rfl)) hfp
      · rw [if_neg (by rw [hc, hs]; decide), if_neg (by rw [hc, hs]; decide),
          if_neg (by rw [hc, hs]; decide), if_neg (by rw [hc, hs]; decide),
          if_neg (by rw [hc, hs]; decide), if_pos (⟨hc, hs⟩ : _ ∧ _)]
        exact FoldAndAppendRight_shape cfg exp WITH t up pol (Or.inr (Or.inr rfl)) hfp
    · rw [hs]
      unfold foldStep
      rw [if_neg (by rw [hc, hs]; decide), if_neg (by rw [hc, hs]; decide),
        if_pos (⟨hc, hs⟩ : _ ∧ _)]
      exact FoldAndAppendRight_shape cfg exp WITH t up pol (Or.inr (Or.inr rfl)) hfp
  · rintro ⟨hc, hs⟩
    unfold foldStep
    rw [if_neg (by rw [hc, hs]; decide), if_neg (by rw [hc, hs]; decide),
      if_neg (by rw [hc, hs]; decide), if_neg (by rw [hc, hs]; decide),
      if_neg (by rw [hc, hs]; decide), if_neg (by rw [hc, hs]; decide),
      if_neg (by rw [hc, hs]; decide), if_neg (by rw [hc, hs]; decide),
      if_pos (⟨hc, hs⟩ : _ ∧ _)]
    exact FoldAndAppendRight_shape cfg exp OR t up pol (Or.inr (Or.inl rfl)) hfp

/-- C2 witness: on a concrete WITH/WITH node the fold step runs and appends
the right pair under OR. -/
theorem parse_third_operand_fold_table_witness :
    Parse c2Cfg c2Exp ["Classpath-exception-2.0"] =
      Parse c2Cfg (foldStep c2Cfg c2Exp "Classpath-exception-2.0") [] ∧
    AppendRightShape c2Exp (foldStep c2Cfg c2Exp "Classpath-exception-2.0")
      "Classpath-exception-2.0" OR := by
  have h := parse_third_operand_fold_table c2Cfg c2Exp "Classpath-exception-2.0" [] "allow"
    c2Policy (Or.inr (Or.inr rfl)) (Or.inr (Or.inr rfl)) (by decide) rfl
  exact ⟨h.1, h.2.2.2 ⟨rfl, rfl⟩⟩

/-- C3: for every string whose tokenization is a well-formed expression and
every policy store resolving all its leaves to Allow, the parsed root carries
Allow; likewise for Deny. -/
theorem parseExpression_const_leaves (cfg : LicensePolicyConfig) (s : String) (p : String)
    (hp : p = POLICY_ALLOW ∨ p = POLICY_DENY)
    (hwf : WFTok false (tokenizeExpression s))
    (hleaf : ∀ t ∈ tokenizeExpression s, IsSymTok t →
      ∃ pol, findPolicy cfg t = Except.ok (p, pol)) :
    ∃ e, ParseExpression cfg s = Except.ok e ∧ e.data.compoundUsagePolicy = p := by
  obtain ⟨expFin, hrun, hpost⟩ :=
    Parse_wf_const cfg p hp false (tokenizeExpression s) hwf hleaf
      NewCompoundExpression (Or.inl rfl)
  obtain ⟨ef, hev, hefp⟩ := evaluate_post p expFin hp hpost
  refine ⟨ef, ?_, hefp⟩
  unfold ParseExpression
  have h0 := hrun []
  rw [List.append_nil] at h0
  rw [h0, Parse_nil, hev]
  rfl

/-- C3 witness: a concrete compound expression comes out Allow under the
all-allow store and Deny under the all-deny store. -/
theorem parseExpression_const_leaves_witness :
    (∃ e, ParseExpression allowAllCfg "MIT AND (MIT OR MIT)" = Except.ok e ∧
      e.data.compoundUsagePolicy = POLICY_ALLOW) ∧
    (∃ e, ParseExpression denyAllCfg "MIT AND (MIT OR MIT)" = Except.ok e ∧
      e.data.compoundUsagePolicy = POLICY_DENY) := by
  have htok : tokenizeExpression "MIT AND (MIT OR MIT)" =
      ["MIT", "AND", "(", "MIT", "OR", "MIT", ")"] := rfl
  have hwf : WFTok false (tokenizeExpression "MIT AND (MIT OR MIT)") := by
    rw [htok]
    have hmit : IsSymTok "MIT" := by decide
    have hinner : WFTok false ["MIT", "OR", "MIT"] :=
      WFTok.chain ["MIT"] "OR" ["MIT"] (WFTok.sym "MIT" hmit)
        (Or.inr (Or.inl rfl)) (WFTok.single ["MIT"] (WFTok.sym "MIT" hmit))
    have houter : WFTok true ["(", "MIT", "OR", "MIT", ")"] :=
      WFTok.group ["MIT", "OR", "MIT"] hinner
    exact WFTok.chain ["MIT"] "AND" ["(", "MIT", "OR", "MIT", ")"]
      (WFTok.sym "MIT" hmit) (Or.inl rfl) (WFTok.single _ houter)
  constructor
  · exact parseExpression_const_leaves allowAllCfg "MIT AND (MIT OR MIT)" POLICY_ALLOW
      (Or.inl rfl) hwf (fun t ht hsym => ⟨{ usagePolicy := "allow", name := "x" }, rfl⟩)
  · exact parseExpression_const_leaves denyAllCfg "MIT AND (MIT OR MIT)" POLICY_DENY
      (Or.inr rfl) hwf (fun t ht hsym => ⟨{ usagePolicy := "deny", name := "x" }, rfl⟩)

/-- The left fold leaves the conjunction either untouched (on an internal
error return) or set to its argument. -/
theorem FoldLeftAndAppendRight_conj (cfg : LicensePolicyConfig)
    (exp : CompoundExpression) (c tok : String) :
    (FoldLeftAndAppendRight cfg exp c tok).1.data.conjunction = exp.data.conjunction ∨
    (FoldLeftAndAppendRight cfg exp c tok).1.data.conjunction = c := by
  unfold FoldLeftAndAppendRight
  cases EvaluateUsagePolicies (CopyCompoundExpression exp) with
  | error msg => exact Or.inl rfl
  | ok child =>
    dsimp only
    cases findPolicy cfg tok with
    | error msg => exact Or.inr rfl
    | ok pr => exact Or.inr rfl

/-- The right append never changes the node conjunction. -/
theorem FoldAndAppendRight_conj (cfg : LicensePolicyConfig)
    (exp : CompoundExpression) (c tok : String) :
    (FoldAndAppendRight cfg exp c tok).1.data.conjunction = exp.data.conjunction := by
  unfold FoldAndAppendRight
  cases findPolicy cfg tok with
  | error msg => rfl
  | ok pr =>
    obtain ⟨up, pol⟩ := pr
    dsimp only
    cases EvaluateUsagePolicies (foldRightChild exp c tok up pol) with
    | error msg => rfl
    | ok child => rfl

/-- The fold dispatch preserves the conjunction invariant. -/
theorem foldStep_conjOK (cfg : LicensePolicyConfig) (exp : CompoundExpression)
    (tok : String) (h : ConjOK exp) : ConjOK (foldStep cfg exp tok) := by
  have hgen : ∀ c, conjSet c → ConjOK (FoldLeftAndAppendRight cfg exp c tok).1 := by
    intro c hc
    unfold ConjOK
    rcases FoldLeftAndAppendRight_conj cfg exp c tok with hh | hh
    · rw [hh]
      exact h
    · rw [hh]
      exact Or.inr hc
  have hgen2 : ∀ c, ConjOK (FoldAndAppendRight cfg exp c tok).1 := by
    intro c
    unfold ConjOK
    rw [FoldAndAppendRight_conj cfg exp c tok]
    exact h
  unfold foldStep
  split_ifs <;>
    first
      | exact hgen AND (Or.inl rfl)
      | exact hgen OR (Or.inr (Or.inl rfl))
      | exact hgen2 AND
      | exact hgen2 OR
      | exact hgen2 WITH
      | exact h

/-- With a policy store whose lookups always succeed, the parse loop always
succeeds, whatever the tokens: in particular unbalanced parentheses never
produce an error. -/
theorem parse_ok_of_lookup_total (cfg : LicensePolicyConfig)
    (htot : ∀ t, ∃ r, findPolicy cfg t = Except.ok r) :
    ∀ fuel ts exp, ts.length < fuel → ConjOK exp →
      ∃ rem e2, parseAuxF cfg fuel exp ts = Except.ok (rem, e2) := by
  intro fuel
  induction fuel with
  | zero => intro ts exp h; omega
  | succ fuel ih =>
    intro ts exp hlen hok
    have hev : ∃ p2, EvaluateUsagePolicies exp =
        Except.ok (setCompoundUsagePolicy exp p2) := by
      rcases hok with hh | hh
      · exact evaluate_ok_of_conj exp (Or.inl hh)
      · exact evaluate_ok_of_conj exp (Or.inr hh)
    match ts with
    | [] =>
      obtain ⟨p2, hp2⟩ := hev
      refine ⟨[], setCompoundUsagePolicy exp p2, ?_⟩
      unfold parseAuxF
      rw [hp2]
      rfl
    | token :: rest =>
      have hrest : rest.length < fuel := by
        simp only [List.length_cons] at hlen; omega
      unfold parseAuxF
      by_cases hL : goToUpper token = LEFT_PARENS
      · rw [if_pos hL]
        obtain ⟨rem1, child, hchild⟩ := ih rest NewCompoundExpression hrest (Or.inl rfl)
        rw [hchild]
        have hlen1 : rem1.length ≤ rest.length := parseAuxF_length cfg _ _ _ _ _ hchild
        have hconj2 : ConjOK (lparenUpdate exp child) := by
          unfold ConjOK lparenUpdate
          by_cases hc : exp.data.conjunction = ""
          · rw [if_pos hc]
            exact hok
          · rw [if_neg hc]
            exact hok
        obtain ⟨rem2, e2, h2⟩ := ih (rem1.drop 1) (lparenUpdate exp child)
          (by rw [List.length_drop]; omega) hconj2
        exact ⟨rem2, e2, h2⟩
      · rw [if_neg hL]
        by_cases hR : goToUpper token = RIGHT_PARENS
        · rw [if_pos hR]
          obtain ⟨p2, hp2⟩ := hev
          refine ⟨token :: rest, setCompoundUsagePolicy exp p2, ?_⟩
          rw [hp2]
          rfl
        · rw [if_neg hR]
          by_cases hA : goToUpper token = AND
          · rw [if_pos hA]
            by_cases hc : exp.data.conjunction = ""
            · rw [if_pos hc]
              exact ih rest _ hrest (Or.inr (Or.inl rfl))
            · rw [if_neg hc]
              exact ih rest _ hrest hok
          · rw [if_neg hA]
            by_cases hO : goToUpper token = OR
            · rw [if_pos hO]
              by_cases hc : exp.data.conjunction = ""
              · rw [if_pos hc]
                exact ih rest _ hrest (Or.inr (Or.inr (Or.inl rfl)))
              · rw [if_neg hc]
                exact ih rest _ hrest hok
            · rw [if_neg hO]
              by_cases hW : goToUpper token = WITH
              · rw [if_pos hW]
                by_cases hc : exp.data.conjunction = ""
                · rw [if_pos hc]
                  exact ih rest _ hrest (Or.inr (Or.inr (Or.inr rfl)))
                · rw [if_neg hc]
                  exact ih rest _ hrest hok
              · rw [if_neg hW]
                by_cases hc : exp.data.conjunction = CONJUNCTION_UNDEFINED
                · rw [if_pos hc]
                  obtain ⟨⟨up, pol⟩, hfp⟩ := htot token
                  rw [hfp]
                  exact ih rest _ hrest hok
                · rw [if_neg hc]
                  by_cases hsub : exp.data.subsequentConjunction = ""
                  · rw [if_pos hsub]
                    obtain ⟨⟨up, pol⟩, hfp⟩ := htot token
                    rw [hfp]
                    exact ih rest _ hrest hok
                  · rw [if_neg hsub]
                    exact ih rest _ hrest (foldStep_conjOK cfg exp token hok)

/-- C4 amended: ParseExpression never reports an error for unbalanced
parentheses; with a store whose lookups always succeed it returns without
error on every input string, in particular on a right parenthesis at depth
zero (evaluate-and-return, ignoring what follows) and on end of input inside
an open group (the partial group is evaluated). -/
theorem parseExpression_ok_of_lookup_total (cfg : LicensePolicyConfig)
    (htot : ∀ t, ∃ r, findPolicy cfg t = Except.ok r) (s : String) :
    exceptIsOk (ParseExpression cfg s) = true := by
  obtain ⟨rem, e2, h⟩ := parse_ok_of_lookup_total cfg htot
    ((tokenizeExpression s).length + 1) (tokenizeExpression s) NewCompoundExpression
    (Nat.lt_succ_self _) (Or.inl rfl)
  unfold ParseExpression Parse
  rw [h]
  rfl

/-- C4 counterexample: the parser accepts unbalanced parentheses without any
error: a right parenthesis at depth zero, an unterminated group, and both
mixed with symbols all return ok. -/
theorem parse_unbalanced_no_error_counterexample :
    exceptIsOk (ParseExpression undefCfg ")") = true ∧
    exceptIsOk (ParseExpression undefCfg "(") = true ∧
    exceptIsOk (ParseExpression undefCfg "MIT ) MIT") = true ∧
    exceptIsOk (ParseExpression undefCfg "( MIT") = true :=
  ⟨rfl, rfl, rfl, rfl⟩

/-- C4 witness: the total-lookup theorem applied to the unbalanced inputs. -/
theorem parseExpression_ok_of_lookup_total_witness :
    exceptIsOk (ParseExpression undefCfg ")") = true ∧
    exceptIsOk (ParseExpression undefCfg "( MIT") = true :=
  ⟨parseExpression_ok_of_lookup_total undefCfg (fun t => ⟨_, rfl⟩) ")",
   parseExpression_ok_of_lookup_total undefCfg (fun t => ⟨_, rfl⟩) "( MIT"⟩

/-- C5 counterexample: parsing the exact input shows the leading AND token
does set the conjunction (it is not left Undefined) and the symbol lands on
the right side (the left side stays Undefined), contrary to the claimed
mechanism; the outcome is still Deny. -/
theorem parse_leading_and_counterexample :
    (ParseExpression gplDenyCfg "AND GPL-2.0-only").map
      (fun e => (e.data.conjunction, e.data.leftUsagePolicy, e.data.rightUsagePolicy,
        e.data.compoundUsagePolicy)) =
      Except.ok (AND, POLICY_UNDEFINED, POLICY_DENY, POLICY_DENY) ∧
    AND ≠ CONJUNCTION_UNDEFINED ∧ POLICY_UNDEFINED ≠ POLICY_DENY :=
  ⟨rfl, by decide, by decide⟩

/-- C5 amended: for every store resolving GPL-2.0-only to Deny, parsing
"AND GPL-2.0-only" succeeds with root policy Deny, the parser consuming the
leading AND as the conjunction (since the conjunction field was still empty)
and the symbol as the right operand; the evaluator sees left Undefined,
right Deny and conjunction AND, and the AND undefined-short-circuit takes
the Deny side. -/
theorem parse_leading_and_amended (cfg : LicensePolicyConfig) (pol : LicensePolicy)
    (hfp : findPolicy cfg "GPL-2.0-only" = Except.ok (POLICY_DENY, pol)) :
    ∃ e, ParseExpression cfg "AND GPL-2.0-only" = Except.ok e ∧
      e.data.conjunction = AND ∧ e.data.leftUsagePolicy = POLICY_UNDEFINED ∧
      e.data.rightUsagePolicy = POLICY_DENY ∧ e.data.compoundUsagePolicy = POLICY_DENY := by
  have htok : tokenizeExpression "AND GPL-2.0-only" = ["AND", "GPL-2.0-only"] := rfl
  unfold ParseExpression
  rw [htok]
  rw [Parse_conj cfg NewCompoundExpression "AND" ["GPL-2.0-only"] AND (Or.inl rfl) (by decide),
    if_pos (by rfl : NewCompoundExpression.data.conjunction = "")]
  rw [Parse_sym_right cfg _ "GPL-2.0-only" [] (by decide) (by decide) (by decide) (by decide)
    (by decide) (by decide) (by rfl), hfp]
  dsimp only
  rw [Parse_nil]
  exact ⟨_, rfl, rfl, rfl, rfl, rfl⟩

/-- C5 amended witness: the amended theorem applied to the concrete store. -/
theorem parse_leading_and_amended_witness :
    ∃ e, ParseExpression gplDenyCfg "AND GPL-2.0-only" = Except.ok e ∧
      e.data.conjunction = AND ∧ e.data.leftUsagePolicy = POLICY_UNDEFINED ∧
      e.data.rightUsagePolicy = POLICY_DENY ∧ e.data.compoundUsagePolicy = POLICY_DENY :=
  parse_leading_and_amended gplDenyCfg { usagePolicy := "deny", name := "GPL 2.0 only" } rfl

/-- C6 counterexample: for the ill-formed string A ) B the unwrapped parse
stops at the stray right parenthesis (root Allow), while the wrapped parse
consumes it inside the group and lets B overwrite the left side (root Deny),
so adding outer parentheses changes the result. -/
theorem parseExpression_wrap_counterexample :
    (ParseExpression abCfg ("(" ++ "A ) B" ++ ")")).map
        (fun e => e.data.compoundUsagePolicy) ≠
      (ParseExpression abCfg "A ) B").map (fun e => e.data.compoundUsagePolicy) := by
  intro h
  rw [show (ParseExpression abCfg ("(" ++ "A ) B" ++ ")")).map
      (fun e => e.data.compoundUsagePolicy) = Except.ok "deny" from rfl,
    show (ParseExpression abCfg "A ) B").map
      (fun e => e.data.compoundUsagePolicy) = Except.ok "allow" from rfl] at h
  exact absurd (Except.ok.inj h) (by decide)

/-- C6 amended witness: wrap-invariance applied to a concrete well-formed
expression and store. -/
theorem parseExpression_wrap_eq_witness :
    (ParseExpression abCfg ("(" ++ "A OR B" ++ ")")).map
        (fun e => e.data.compoundUsagePolicy) =
      (ParseExpression abCfg "A OR B").map (fun e => e.data.compoundUsagePolicy) :=
  parseExpression_wrap_eq abCfg "A OR B" (by
    rw [show tokenizeExpression "A OR B" = ["A", "OR", "B"] from rfl]
    exact WFTok.chain ["A"] "OR" ["B"] (WFTok.sym "A" (by decide)) (Or.inr (Or.inl rfl))
      (WFTok.single ["B"] (WFTok.sym "B" (by decide))))

/-- C7: tokenizing the empty string yields no tokens, and both the empty
string and the empty group parse without error to a node whose compound
usage policy is the constructor default Undefined, whatever the store. -/
theorem parse_empty_inputs (cfg : LicensePolicyConfig) :
    tokenizeExpression "" = [] ∧
    ParseExpression cfg "" = Except.ok NewCompoundExpression ∧
    NewCompoundExpression.data.compoundUsagePolicy = POLICY_UNDEFINED ∧
    (∃ e, ParseExpression cfg "()" = Except.ok e ∧
      e.data.compoundUsagePolicy = POLICY_UNDEFINED ∧
      e.data.leftUsagePolicy = POLICY_UNDEFINED ∧
      e.data.rightUsagePolicy = POLICY_UNDEFINED ∧
      e.data.conjunction = CONJUNCTION_UNDEFINED) := by
  exact ⟨rfl, rfl, rfl, ⟨_, rfl, rfl, rfl, rfl, rfl⟩⟩

/-- C10: findPolicy resolves leaves in a fixed order: a URL-shaped token is
looked up only in the URL index (two stores agreeing there agree on the
result); otherwise the SPDX-id lookup runs first and the name index is
consulted only when it produced an Undefined-policy record; URL and name
misses yield records, never errors, so only an SPDX-id lookup error can
abort. -/
theorem findPolicy_lookup_order (cfg cfg2 : LicensePolicyConfig) (t : String)
    (p : LicensePolicy) (msg : String) :
    (cfg.isUrlish t = true →
      findPolicy cfg t =
        Except.ok ((cfg.findPolicyByUrl t).usagePolicy, cfg.findPolicyByUrl t)) ∧
    (cfg.isUrlish t = true → cfg2.isUrlish t = true →
      cfg.findPolicyByUrl t = cfg2.findPolicyByUrl t →
      findPolicy cfg t = findPolicy cfg2 t) ∧
    (cfg.isUrlish t = false → cfg.findPolicyBySpdxId t = Except.ok p →
      p.usagePolicy ≠ POLICY_UNDEFINED →
      findPolicy cfg t = Except.ok (p.usagePolicy, p)) ∧
    (cfg.isUrlish t = false → cfg.findPolicyBySpdxId t = Except.ok p →
      p.usagePolicy = POLICY_UNDEFINED →
      findPolicy cfg t =
        Except.ok ((cfg.findPolicyByName t).usagePolicy, cfg.findPolicyByName t)) ∧
    (findPolicy cfg t = Except.error msg →
      cfg.isUrlish t = false ∧ cfg.findPolicyBySpdxId t = Except.error msg) := by
  refine ⟨?_, ?_, ?_, ?_, ?_⟩
  · intro h
    unfold findPolicy
    rw [if_pos h]
  · intro h h2 hurl
    unfold findPolicy
    rw [if_pos h, if_pos h2, hurl]
  · intro h hsp hne
    unfold findPolicy
    rw [if_neg (by simp [h]), hsp]
    dsimp only
    rw [if_pos hne]
  · intro h hsp heq
    unfold findPolicy
    rw [if_neg (by simp [h]), hsp]
    dsimp only
    rw [if_neg (by simp [heq])]
  · intro h
    unfold findPolicy at h
    by_cases hu : cfg.isUrlish t
    · rw [if_pos hu] at h
      exact absurd h (by simp)
    · rw [if_neg hu] at h
      refine ⟨by simpa using hu, ?_⟩
      cases hsp : cfg.findPolicyBySpdxId t with
      | error m2 =>
        rw [hsp] at h
        cases h
        rfl
      | ok p2 =>
        rw [hsp] at h
        dsimp only at h
        by_cases hp2 : p2.usagePolicy ≠ POLICY_UNDEFINED
        · rw [if_pos hp2] at h
          exact absurd h (by simp)
        · rw [if_neg hp2] at h
          exact absurd h (by simp)

/-- C10 witness: on the concrete store the URL-shaped token resolves through
the URL index and a defined SPDX id never reaches the name index. -/
theorem findPolicy_lookup_order_witness :
    findPolicy urlCfg "https://x" =
      Except.ok ((urlCfg.findPolicyByUrl "https://x").usagePolicy,
        urlCfg.findPolicyByUrl "https://x") ∧
    findPolicy urlCfg "MIT" =
      Except.ok (LicensePolicy.usagePolicy { usagePolicy := "allow", name := "MIT License" },
        { usagePolicy := "allow", name := "MIT License" }) :=
  ⟨(findPolicy_lookup_order urlCfg urlCfg "https://x"
      { usagePolicy := "allow", name := "MIT License" } "m").1 rfl,
   (findPolicy_lookup_order urlCfg urlCfg "MIT"
      { usagePolicy := "allow", name := "MIT License" } "m").2.2.1 rfl rfl (by decide)⟩

/-- C8 counterexample: on a 7-deep parent chain the current Maven finder
performs 8 POM fetches — more than the claimed bound of 5 — and returns the
depth-7 licenses instead of giving up. -/
theorem maven_parent_chase_counterexample :
    MavenComponentLicenseFinderData.FindLicenses chain7Repo 9 (some []) ⟨"g", "a", "0", ""⟩ =
      some (Except.ok [{ license := some { name := "Apache-2.0" } }],
        some [("g:a:0", [{ license := some { name := "Apache-2.0" } }])], 8) ∧
    ¬ (8 ≤ MAX_PARENT_PACKAGE_RECURSION_DEPTH) :=
  ⟨rfl, by decide⟩

/-- C8 amended: the bounded parent chase belongs to the earlier detector
FindLicensesInPom, whose loop performs at most
MAX_PARENT_PACKAGE_RECURSION_DEPTH = 5 fetches for every oracle; the current
finder MavenComponentLicenseFinderData.FindLicenses chases parents without
any bound — it can exceed 5 fetches and on a cyclic parent chain its loop
never finishes, whatever fuel it is given. -/
theorem maven_parent_chase_amended :
    (∀ repo bound g a v, (findLicensesInPomLoop repo bound g a v).2 ≤ bound) ∧
    (∀ repo g a v,
      (findLicensesInPomLoop repo MAX_PARENT_PACKAGE_RECURSION_DEPTH g a v).2 ≤ 5) ∧
    (∃ repo fuel cache comp res c2 n,
      MavenComponentLicenseFinderData.FindLicenses repo fuel cache comp =
        some (res, c2, n) ∧ 5 < n) ∧
    (∀ fuel g a v, mavenFindLicensesLoop cyclicRepo fuel g a v = none) := by
  have h1 : ∀ repo bound g a v, (findLicensesInPomLoop repo bound g a v).2 ≤ bound := by
    intro repo bound
    induction bound with
    | zero => intro g a v; exact Nat.le_refl 0
    | succ b ih =>
      intro g a v
      show (findLicensesInPomLoop repo (b + 1) g a v).2 ≤ b + 1
      unfold findLicensesInPomLoop
      cases hr : repo g a v with
      | error e => exact Nat.succ_le_succ (Nat.zero_le b)
      | ok pom =>
        dsimp only
        by_cases hl : (parseLicensesFromPom (some pom)).length > 0
        · rw [if_pos hl]
          exact Nat.succ_le_succ (Nat.zero_le b)
        · rw [if_neg hl]
          cases hp : pom.parent with
          | none => exact Nat.succ_le_succ (Nat.zero_le b)
          | some parent =>
            dsimp only
            exact Nat.succ_le_succ (ih parent.groupId parent.artifactId parent.version)
  have h3 : ∀ fuel g a v, mavenFindLicensesLoop cyclicRepo fuel g a v = none := by
    intro fuel
    induction fuel with
    | zero => intro g a v; rfl
    | succ f ih =>
      intro g a v
      show (match mavenFindLicensesLoop cyclicRepo f g a v with
        | none => none
        | some (r, n) => some (r, n + 1)) = none
      rw [ih g a v]
  refine ⟨h1, fun repo g a v => h1 repo 5 g a v, ?_, h3⟩
  exact ⟨chain7Repo, 9, some [], ⟨"g", "a", "0", ""⟩,
    Except.ok [{ license := some { name := "Apache-2.0" } }],
    some [("g:a:0", [{ license := some { name := "Apache-2.0" } }])], 8, rfl, by decide⟩

/-- Lookup after insertion under the same key returns the inserted value. -/
theorem cacheGet_set_self (c : LicenseCache) (k : String) (v : List CDXLicenseChoice) :
    cacheGet (cacheSet c k v) k = some v := by
  unfold cacheGet cacheSet
  rw [List.find?_cons_of_pos _ (by simp)]
  rfl

/-- Removing the entries of one key does not affect lookups under another. -/
theorem find_key_filter (c : LicenseCache) (key k : String) (hne : ¬ key = k) :
    (c.filter (fun kv => ! (kv.1 == key))).find? (fun kv => kv.1 == k) =
      c.find? (fun kv => kv.1 == k) := by
  induction c with
  | nil => rfl
  | cons kv rest ih =>
    by_cases hk : kv.1 = k
    · have hkey : (kv.1 == key) = false :=
        beq_eq_false_iff_ne.mpr (fun h => hne (h ▸ hk : key = k))
      rw [List.filter_cons_of_pos (by simp [hkey])]
      rw [List.find?_cons_of_pos _ (by simp [hk]), List.find?_cons_of_pos _ (by simp [hk])]
    · have hk2 : (kv.1 == k) = false := beq_eq_false_iff_ne.mpr hk
      by_cases hkey : (kv.1 == key) = true
      · rw [List.filter_cons_of_neg (by simp [hkey])]
        rw [ih, List.find?_cons_of_neg _ (by simp [hk2])]
      · have hkeyf : (kv.1 == key) = false := by
          cases h : kv.1 == key
          · rfl
          · exact absurd h hkey
        rw [List.filter_cons_of_pos (by simp [hkeyf])]
        rw [List.find?_cons_of_neg _ (by simp [hk2]), List.find?_cons_of_neg _ (by simp [hk2])]
        exact ih

/-- Lookup after insertion under a different key is unchanged. -/
theorem cacheGet_set_other (c : LicenseCache) (key k : String) (v : List CDXLicenseChoice)
    (hne : ¬ key = k) : cacheGet (cacheSet c key v) k = cacheGet c k := by
  unfold cacheGet cacheSet
  rw [List.find?_cons_of_neg _ (by simpa using hne), find_key_filter c key k hne]

/-- Storing preserves the non-empty-values cache invariant. -/
theorem cacheInv_store (c c2 : LicenseCache) (comp : CDXComponent)
    (lcs : List CDXLicenseChoice) (hinv : CacheInv c)
    (h : storeInLicenseCache (some c) comp lcs = some c2) : CacheInv c2 := by
  unfold storeInLicenseCache at h
  by_cases hl : lcs.length > 0
  · rw [if_pos hl] at h
    dsimp only at h
    injection h with h2
    subst h2
    intro k v hget
    by_cases hk : getComponentLicenseCacheId comp = k
    · subst hk
      rw [cacheGet_set_self] at hget
      injection hget with hv
      subst hv
      intro hnil
      rw [hnil] at hl
      exact absurd hl (by decide)
    · rw [cacheGet_set_other _ _ _ _ hk] at hget
      exact hinv k v hget
  · rw [if_neg hl] at h
    injection h with h2
    subst h2
    exact hinv

/-- Every finished run of the parent-chase loop performed at least one
fetch. -/
theorem mavenLoop_pos (repo : MavenRepo) (fuel : Nat) (g a v : String)
    (r : Except String (List CDXLicenseChoice)) (n : Nat)
    (h : mavenFindLicensesLoop repo fuel g a v = some (r, n)) : 1 ≤ n := by
  cases fuel with
  | zero => exact Option.noConfusion h
  | succ f =>
    unfold mavenFindLicensesLoop at h
    cases hr : repo g a v with
    | error e =>
      rw [hr] at h
      dsimp only at h
      injection h with h2
      have hn : (1 : Nat) = n := congrArg Prod.snd h2
      omega
    | ok pom =>
      rw [hr] at h
      dsimp only at h
      by_cases hl : (extractLicensesFromPom (some pom)).length > 0
      · rw [if_pos hl] at h
        injection h with h2
        have hn : (1 : Nat) = n := congrArg Prod.snd h2
        omega
      · rw [if_neg hl] at h
        cases hp : pom.parent with
        | none =>
          rw [hp] at h
          dsimp only at h
          injection h with h2
          have hn : (1 : Nat) = n := congrArg Prod.snd h2
          omega
        | some parent =>
          rw [hp] at h
          dsimp only at h
          cases hrec : mavenFindLicensesLoop repo f parent.groupId parent.artifactId
              parent.version with
          | none =>
            rw [hrec] at h
            exact Option.noConfusion h
          | some p =>
            rw [hrec] at h
            dsimp only at h
            injection h with h2
            have hn : p.2 + 1 = n := congrArg Prod.snd h2
            omega

/-- A call that misses the cache performs at least one fetch. -/
theorem findLicenses_miss_fetches (repo : MavenRepo) (c : Option LicenseCache)
    (comp : CDXComponent) (hret : retrieveFromLicenseCache c comp = none)
    (fuel2 : Nat) (res2 : Except String (List CDXLicenseChoice))
    (c3 : Option LicenseCache) (n2 : Nat)
    (h2 : MavenComponentLicenseFinderData.FindLicenses repo fuel2 c comp =
      some (res2, c3, n2)) : 1 ≤ n2 := by
  unfold MavenComponentLicenseFinderData.FindLicenses at h2
  rw [hret] at h2
  dsimp only at h2
  cases hloop : mavenFindLicensesLoop repo fuel2 comp.group comp.name comp.version with
  | none =>
    rw [hloop] at h2
    exact Option.noConfusion h2
  | some p =>
    rw [hloop] at h2
    obtain ⟨r, n⟩ := p
    cases r with
    | error e =>
      dsimp only at h2
      injection h2 with h3
      have hn : n = n2 := congrArg (fun q => q.2.2) h3
      have := mavenLoop_pos repo fuel2 comp.group comp.name comp.version _ n hloop
      omega
    | ok lcs =>
      dsimp only at h2
      injection h2 with h3
      have hn : n = n2 := congrArg (fun q => q.2.2) h3
      have := mavenLoop_pos repo fuel2 comp.group comp.name comp.version _ n hloop
      omega

/-- C9: the finder license cache keeps only non-empty results: an empty
license-choice list is never stored (the cache is returned unchanged), the
store preserves the non-empty-values invariant, a call that found nothing or
failed leaves the cache unchanged so the next call for the same
group:name:version key queries the remote repository again (at least one
fetch), and a call that found a non-empty list makes the next call for that
key answer from the cache with no fetch at all. -/
theorem finder_cache_nonempty_invariant :
    (∀ cache comp, storeInLicenseCache cache comp [] = cache) ∧
    (∀ c c2 comp lcs, CacheInv c → storeInLicenseCache (some c) comp lcs = some c2 →
      CacheInv c2) ∧
    (∀ repo fuel c comp res c2 n, CacheInv c →
      MavenComponentLicenseFinderData.FindLicenses repo fuel (some c) comp =
        some (res, c2, n) →
      ((res = Except.ok [] ∨ (∃ e, res = Except.error e)) →
        c2 = some c ∧ 1 ≤ n ∧
        (∀ fuel2 res2 c3 n2,
          MavenComponentLicenseFinderData.FindLicenses repo fuel2 c2 comp =
            some (res2, c3, n2) → 1 ≤ n2)) ∧
      (∀ lcs, res = Except.ok lcs → lcs ≠ [] →
        (∀ fuel2,
          MavenComponentLicenseFinderData.FindLicenses repo fuel2 c2 comp =
            some (Except.ok lcs, c2, 0)))) := by
  refine ⟨fun cache comp => rfl, fun c c2 comp lcs hinv h => cacheInv_store c c2 comp lcs hinv h, ?_⟩
  intro repo fuel c comp res c2 n hinv h
  unfold MavenComponentLicenseFinderData.FindLicenses at h
  cases hret : retrieveFromLicenseCache (some c) comp with
  | some lcs0 =>
    rw [hret] at h
    dsimp only at h
    injection h with h2
    have hres : Except.ok lcs0 = res := congrArg Prod.fst h2
    have hc2 : some c = c2 := congrArg (fun q => q.2.1) h2
    have hne : lcs0 ≠ [] := hinv (getComponentLicenseCacheId comp) lcs0 hret
    constructor
    · intro hbad
      cases hbad with
      | inl hnil =>
        rw [← hres] at hnil
        injection hnil with hnil2
        exact absurd hnil2 hne
      | inr hex =>
        obtain ⟨e, he⟩ := hex
        rw [← hres] at he
        exact Except.noConfusion he
    · intro lcs hok hlne fuel2
      have hlcs : lcs0 = lcs := by
        rw [← hres] at hok
        injection hok with h3
      subst hlcs
      rw [← hc2]
      unfold MavenComponentLicenseFinderData.FindLicenses
      rw [hret]
  | none =>
    rw [hret] at h
    dsimp only at h
    cases hloop : mavenFindLicensesLoop repo fuel comp.group comp.name comp.version with
    | none =>
      rw [hloop] at h
      exact Option.noConfusion h
    | some p =>
      rw [hloop] at h
      obtain ⟨r, n0⟩ := p
      cases r with
      | error e =>
        dsimp only at h
        injection h with h2
        have hres : Except.error e = res := congrArg Prod.fst h2
        have hc2 : some c = c2 := congrArg (fun q => q.2.1) h2
        have hn : n0 = n := congrArg (fun q => q.2.2) h2
        have hpos := mavenLoop_pos repo fuel comp.group comp.name comp.version _ n0 hloop
        constructor
        · intro hbad
          refine ⟨hc2.symm, by omega, ?_⟩
          intro fuel2 res2 c3 n2 h2c
          rw [← hc2] at h2c
          exact findLicenses_miss_fetches repo (some c) comp hret fuel2 res2 c3 n2 h2c
        · intro lcs hok hlne
          rw [← hres] at hok
          exact Except.noConfusion hok
      | ok lcs0 =>
        dsimp only at h
        injection h with h2
        have hres : Except.ok lcs0 = res := congrArg Prod.fst h2
        have hc2 : storeInLicenseCache (some c) comp lcs0 = c2 :=
          congrArg (fun q => q.2.1) h2
        have hn : n0 = n := congrArg (fun q => q.2.2) h2
        have hpos := mavenLoop_pos repo fuel comp.group comp.name comp.version _ n0 hloop
        constructor
        · intro hbad
          have hnil : lcs0 = [] := by
            cases hbad with
            | inl hnil2 =>
              rw [← hres] at hnil2
              injection hnil2 with h3
            | inr hex =>
              obtain ⟨e, he⟩ := hex
              rw [← hres] at he
              exact Except.noConfusion he
          subst hnil
          have hstore : storeInLicenseCache (some c) comp [] = some c := rfl
          rw [hstore] at hc2
          refine ⟨hc2.symm, by omega, ?_⟩
          intro fuel2 res2 c3 n2 h2c
          rw [← hc2] at h2c
          exact findLicenses_miss_fetches repo (some c) comp hret fuel2 res2 c3 n2 h2c
        · intro lcs hok hlne fuel2
          have hlcs : lcs0 = lcs := by
            rw [← hres] at hok
            injection hok with h3
          subst hlcs
          have hlen : lcs0.length > 0 := by
            cases lcs0 with
            | nil => exact absurd rfl hlne
            | cons x xs => exact Nat.succ_pos xs.length
          have hstore : storeInLicenseCache (some c) comp lcs0 =
              some (cacheSet c (getComponentLicenseCacheId comp) lcs0) := by
            unfold storeInLicenseCache
            rw [if_pos hlen]
          rw [hstore] at hc2
          rw [← hc2]
          unfold MavenComponentLicenseFinderData.FindLicenses
          have hret2 : retrieveFromLicenseCache
              (some (cacheSet c (getComponentLicenseCacheId comp) lcs0)) comp =
              some lcs0 := cacheGet_set_self c (getComponentLicenseCacheId comp) lcs0
          rw [hret2]

/-- C9 witness: after the finder stored the non-empty result for
has:n:v, a later call is answered from the cache with zero fetches. -/
theorem finder_cache_nonempty_invariant_witness :
    MavenComponentLicenseFinderData.FindLicenses oneShotRepo 3
        (some [("has:n:v", [{ license := some { name := "MIT" } }])]) ⟨"has", "n", "v", ""⟩ =
      some (Except.ok [{ license := some { name := "MIT" } }],
        some [("has:n:v", [{ license := some { name := "MIT" } }])], 0) :=
  ((finder_cache_nonempty_invariant.2.2 oneShotRepo 1 [] ⟨"has", "n", "v", ""⟩
      (Except.ok [{ license := some { name := "MIT" } }])
      (some [("has:n:v", [{ license := some { name := "MIT" } }])]) 1
      (fun k v hget => absurd hget (by simp [cacheGet, List.find?])) rfl).2
    [{ license := some { name := "MIT" } }] rfl (by decide)) 3
